import Mathlib

/-!
# updatecli: autodiscovery-to-pipeline synthesis (`Engine.LoadAutoDiscovery`)

A shallow embedding of `pkg/core/engine/autodiscovery.go`.

* Go structs become Lean structures, Go maps become association lists with
  unique keys (`GoMap`), Go slices become lists, a Go `error` is its message.
* The collaborators that live outside the file (the crawler runner, the YAML
  decoder, `pipeline.Pipeline.Init`, `os.Getwd`, the process-wide experimental
  flag, `version.Version`, `autodiscovery.DefaultCrawlerSpecs`) are the fields
  of an environment record `Env`; every theorem that quantifies over `Env`
  holds for all of them.
* `crypto/sha256` and the `%x` verb of `fmt.Sprintf` are embedded in full
  (FIPS 180-4 over `Nat` with explicit reduction modulo `2^32`).
* The engine state is passed explicitly.  Three ghost fields record the calls
  made to the collaborators (`autodiscovery.New`, `Crawler.Run`,
  `Pipeline.Init`), so that statements such as "no crawler is run" or "the
  manifest handed to instantiation" have a meaning.
* `for id, p := range e.Pipelines` evaluates the slice once: the loop visits
  the pipelines the slice holds when it starts, `p` is a copy of the element,
  and the writes `e.Pipelines[id].Report.Result = ...` go to the engine.  The
  two assignments of lines 86-87 are made through `p`; they are modelled on
  the loop variable, which is where every later line reads them.
* A `return` inside a loop is the constructor `Flow.ret`, falling through to
  the next iteration is `Flow.next`.
-/

namespace Updatecli

/-! ## `crypto/sha256` and `fmt.Sprintf("%x", ...)` -/

namespace Sha256

/-- The round constants of SHA-256. -/
def K : List Nat :=
  [0x428a2f98, 0x71374491, 0xb5c0fbcf, 0xe9b5dba5, 0x3956c25b, 0x59f111f1, 0x923f82a4, 0xab1c5ed5,
   0xd807aa98, 0x12835b01, 0x243185be, 0x550c7dc3, 0x72be5d74, 0x80deb1fe, 0x9bdc06a7, 0xc19bf174,
   0xe49b69c1, 0xefbe4786, 0x0fc19dc6, 0x240ca1cc, 0x2de92c6f, 0x4a7484aa, 0x5cb0a9dc, 0x76f988da,
   0x983e5152, 0xa831c66d, 0xb00327c8, 0xbf597fc7, 0xc6e00bf3, 0xd5a79147, 0x06ca6351, 0x14292967,
   0x27b70a85, 0x2e1b2138, 0x4d2c6dfc, 0x53380d13, 0x650a7354, 0x766a0abb, 0x81c2c92e, 0x92722c85,
   0xa2bfe8a1, 0xa81a664b, 0xc24b8b70, 0xc76c51a3, 0xd192e819, 0xd6990624, 0xf40e3585, 0x106aa070,
   0x19a4c116, 0x1e376c08, 0x2748774c, 0x34b0bcb5, 0x391c0cb3, 0x4ed8aa4a, 0x5b9cca4f, 0x682e6ff3,
   0x748f82ee, 0x78a5636f, 0x84c87814, 0x8cc70208, 0x90befffa, 0xa4506ceb, 0xbef9a3f7, 0xc67178f2]

/-- Addition of 32-bit words. -/
def add32 (a b : Nat) : Nat := (a + b) % 2 ^ 32

/-- Right rotation of a 32-bit word. -/
def rotr (x n : Nat) : Nat := ((x >>> n) ||| (x <<< (32 - n))) % 2 ^ 32

/-- Bitwise complement of a 32-bit word. -/
def not32 (x : Nat) : Nat := (2 ^ 32 - 1) ^^^ (x % 2 ^ 32)

def ch (x y z : Nat) : Nat := (x &&& y) ^^^ (not32 x &&& z)

def maj (x y z : Nat) : Nat := (x &&& y) ^^^ (x &&& z) ^^^ (y &&& z)

def bigSigma0 (x : Nat) : Nat := rotr x 2 ^^^ rotr x 13 ^^^ rotr x 22

def bigSigma1 (x : Nat) : Nat := rotr x 6 ^^^ rotr x 11 ^^^ rotr x 25

def smallSigma0 (x : Nat) : Nat := rotr x 7 ^^^ rotr x 18 ^^^ (x >>> 3)

def smallSigma1 (x : Nat) : Nat := rotr x 17 ^^^ rotr x 19 ^^^ (x >>> 10)

/-- Big-endian bytes of `x`, `n` of them. -/
def beBytes : Nat → Nat → List Nat
  | 0, _ => []
  | n + 1, x => (x >>> (8 * n)) % 256 :: beBytes n x

/-- Padding: a `1` bit, zeros up to 56 modulo 64, then the bit length on 64 bits. -/
def pad (msg : List Nat) : List Nat :=
  msg ++ 0x80 :: List.replicate ((64 - (msg.length + 9) % 64) % 64) 0 ++
    beBytes 8 ((8 * msg.length) % 2 ^ 64)

/-- Big-endian 32-bit words of a byte string (a trailing partial word is zero-extended). -/
def toWords : Nat → List Nat → List Nat
  | 0, _ => []
  | n + 1, b0 :: b1 :: b2 :: b3 :: rest =>
      (b0 * 2 ^ 24 + b1 * 2 ^ 16 + b2 * 2 ^ 8 + b3) :: toWords n rest
  | _ + 1, _ => []

/-- The message schedule: `n` more words appended to `w`. -/
def schedule : Nat → List Nat → List Nat
  | 0, w => w
  | n + 1, w =>
      let i := w.length
      schedule n (w ++ [add32 (add32 (smallSigma1 (w.getD (i - 2) 0)) (w.getD (i - 7) 0))
        (add32 (smallSigma0 (w.getD (i - 15) 0)) (w.getD (i - 16) 0))])

/-- The eight working variables. -/
structure Vars where
  a : Nat
  b : Nat
  c : Nat
  d : Nat
  e : Nat
  f : Nat
  g : Nat
  h : Nat
  deriving DecidableEq, Repr

/-- One round of the compression function. -/
def round (v : Vars) (kw : Nat × Nat) : Vars :=
  let t1 := add32 (add32 (add32 v.h (bigSigma1 v.e)) (add32 (ch v.e v.f v.g) kw.1)) kw.2
  let t2 := add32 (bigSigma0 v.a) (maj v.a v.b v.c)
  { a := add32 t1 t2, b := v.a, c := v.b, d := v.c, e := add32 v.d t1, f := v.e, g := v.f, h := v.g }

/-- The compression of one 64-byte block into the chaining value. -/
def compress (hv : Vars) (block : List Nat) : Vars :=
  let w := schedule 48 (toWords 16 block)
  let v := (K.zip w).foldl round hv
  { a := add32 hv.a v.a, b := add32 hv.b v.b, c := add32 hv.c v.c, d := add32 hv.d v.d,
    e := add32 hv.e v.e, f := add32 hv.f v.f, g := add32 hv.g v.g, h := add32 hv.h v.h }

/-- All blocks of a padded message, `n` of them. -/
def blocks : Nat → Vars → List Nat → Vars
  | 0, hv, _ => hv
  | n + 1, hv, bs => blocks n (compress hv (bs.take 64)) (bs.drop 64)

/-- The initial chaining value. -/
def iv : Vars :=
  { a := 0x6a09e667, b := 0xbb67ae85, c := 0x3c6ef372, d := 0xa54ff53a,
    e := 0x510e527f, f := 0x9b05688c, g := 0x1f83d9ab, h := 0x5be0cd19 }

/-- The digest of a byte string: 32 bytes (`hash.Sum(nil)` after the writes). -/
def sum (msg : List Nat) : List Nat :=
  let p := pad msg
  let v := blocks (p.length / 64) iv p
  [v.a, v.b, v.c, v.d, v.e, v.f, v.g, v.h].flatMap (beBytes 4)

end Sha256

/-- A hexadecimal digit, lower case. -/
def hexDigit (n : Nat) : Char :=
  if n < 10 then Char.ofNat (48 + n) else Char.ofNat (87 + n)

/-- The `%x` verb on a byte slice: two lower-case hexadecimal digits per byte. -/
def hexEncode (bs : List Nat) : String :=
  String.mk (bs.flatMap fun b => [hexDigit (b / 16 % 16), hexDigit (b % 16)])

/-- The bytes of a Go string (UTF-8). -/
def stringBytes (s : String) : List Nat :=
  s.toUTF8.toList.map UInt8.toNat

/-! ## Data model -/

/-- A Go `error`, identified with its message. -/
abbrev Error := String

/-- A raw manifest as returned by a crawler (`[]byte`, YAML text). -/
abbrev Bytes := String

/-- A Go `map[string]V`: an association list; a well-formed map has no repeated key. -/
abbrev GoMap (V : Type) := List (String × V)

namespace GoMap

variable {V : Type}

/-- The read `v, found = m[k]`. -/
def lookup : GoMap V → String → Option V
  | [], _ => none
  | (k', v) :: rest, k => if k' = k then some v else lookup rest k

/-- The write `m[k] = v`. -/
def store : GoMap V → String → V → GoMap V
  | [], k, v => [(k, v)]
  | (k', v') :: rest, k, v => if k' = k then (k, v) :: rest else (k', v') :: store rest k v

/-- The keys of a map. -/
def keys (m : GoMap V) : List String := m.map Prod.fst

end GoMap

/-- Modelled from the spec: the type of `Report.Result` and the constants `result.SUCCESS`,
`result.FAILURE` (package `result` is not part of the sources at hand); the spec gives the
values unset, SUCCESS, FAILURE. -/
inductive Result where
  | UNSET
  | SUCCESS
  | FAILURE
  deriving DecidableEq, Repr

/-- Modelled from the spec: `action.Config`; only `Title` is read or written here, `Rest`
stands for every other field. -/
structure ActionConfig where
  Title : String
  Rest : String
  deriving DecidableEq, Repr

/-- Modelled from the spec: `action.Action`, of which only `Config` is used. -/
structure Action where
  Config : ActionConfig
  deriving DecidableEq, Repr

/-- Modelled from the spec: `scm.Config`, copied as a whole. -/
structure ScmConfig where
  Rest : String
  deriving DecidableEq, Repr

/-- Modelled from the spec: `scm.Scm`; `Config` is the value behind the pointer `sc.Config`
(line 159 dereferences it), `Directory` is what `Handler.GetDirectory()` returns. -/
structure Scm where
  Config : ScmConfig
  Directory : String
  deriving DecidableEq, Repr

/-- Modelled from the spec: `autodiscovery.Config`, the `autodiscovery` block of a manifest.
`Crawlers` is `none` for a nil map. -/
structure AutoDiscoveryConfig where
  Crawlers : Option (GoMap String)
  ScmId : String
  ActionId : String
  PullrequestId : String
  GroupBy : String
  deriving DecidableEq, Repr

/-- Modelled from the spec: the constant `autodiscovery.GROUPBYALL` (wire value `all`). -/
def GROUPBYALL : String := "all"

/-- Modelled from the spec: the constant `autodiscovery.GROUPBYINDIVIDUAL` (wire value
`individual`). -/
def GROUPBYINDIVIDUAL : String := "individual"

/-- Modelled from the spec: `config.Spec`, a manifest; `Rest` stands for the fields this file
does not touch (sources, conditions, targets, ...). -/
structure Spec where
  Name : String
  PipelineID : String
  Version : String
  SCMs : GoMap ScmConfig
  Actions : GoMap ActionConfig
  AutoDiscovery : AutoDiscoveryConfig
  Rest : String
  deriving DecidableEq, Repr

/-- Modelled from the spec: `config.Config`, the envelope of a manifest. -/
structure Config where
  Spec : Spec
  deriving DecidableEq, Repr

/-- Modelled from the spec: the report of a pipeline. -/
structure Report where
  Result : Result
  deriving DecidableEq, Repr

/-- Modelled from the spec: `pipeline.Pipeline`, with the fields this file uses. -/
structure Pipeline where
  Name : String
  Config : Config
  SCMs : GoMap Scm
  Actions : GoMap Action
  Report : Report
  deriving DecidableEq, Repr

/-- Modelled from the spec: `pipeline.Options`, passed on untouched. -/
structure Options where
  Rest : String
  deriving DecidableEq, Repr

/-- Modelled from the spec: a crawler runner, constructed from an autodiscovery
configuration and a working directory. -/
structure Crawler where
  spec : AutoDiscoveryConfig
  rootDir : String
  deriving DecidableEq, Repr

/-- The receiver of `LoadAutoDiscovery`: the pipelines, the configurations they come from,
and the pipeline options (`e.Options.Pipeline`). -/
structure Engine where
  Pipelines : List Pipeline
  configurations : List Config
  Options : Options
  deriving DecidableEq, Repr

/-- The collaborators of `LoadAutoDiscovery` that are not in the file. -/
structure Env where
  /-- The flag `cmdoptions.Experimental`. -/
  Experimental : Bool
  /-- The result of `os.Getwd()`. -/
  Getwd : Except Error String
  /-- The constructor `autodiscovery.New(spec, workDir)`. -/
  New : AutoDiscoveryConfig → String → Except Error Crawler
  /-- The method `c.Run()`. -/
  Run : Crawler → Except Error (List Bytes)
  /-- The decoder `yaml.Unmarshal(bytes, &manifest)` on a zero `config.Spec`. -/
  Unmarshal : Bytes → Except Error Spec
  /-- The method `newPipeline.Init(&newConfig, options)` on a zero pipeline: an error, or the
  pipeline built and the configuration as `Init` leaves it behind its pointer. -/
  Init : Config → Options → Except Error (Pipeline × Config)
  /-- The constant `version.Version`. -/
  Version : String
  /-- The variable `autodiscovery.DefaultCrawlerSpecs`. -/
  DefaultCrawlerSpecs : AutoDiscoveryConfig
  /-- The verb `%q` of `fmt` on a string. -/
  Quote : String → String

/-- The engine together with a record of the calls made to the collaborators (ghost state:
nothing reads it). -/
structure State where
  e : Engine
  /-- The arguments of the calls to `autodiscovery.New`, oldest first. -/
  news : List (AutoDiscoveryConfig × String)
  /-- The crawlers on which `Run` was called, oldest first. -/
  runs : List Crawler
  /-- The configurations handed to `Pipeline.Init`, oldest first. -/
  inits : List Config
  deriving DecidableEq, Repr

/-- How a loop body ends: it falls through to the next iteration, or the function returns. -/
inductive Flow (σ : Type) where
  | next (s : σ)
  | ret (err : Option Error) (s : σ)

namespace Flow

/-- The state a loop body ends in. -/
def state {σ : Type} : Flow σ → σ
  | next s => s
  | ret _ s => s

end Flow

/-- The zero value of `autodiscovery.Config`. -/
def AutoDiscoveryConfig.zero : AutoDiscoveryConfig :=
  { Crawlers := none, ScmId := "", ActionId := "", PullrequestId := "", GroupBy := "" }

/-- The zero value of `config.Spec`. -/
def Spec.zero : Spec :=
  { Name := "", PipelineID := "", Version := "", SCMs := [], Actions := [],
    AutoDiscovery := AutoDiscoveryConfig.zero, Rest := "" }

/-- The zero value of `pipeline.Options`. -/
def Options.zero : Options := { Rest := "" }

/-! ## `LoadAutoDiscovery`

The function is cut along its control structure: the bootstrap pipeline (lines 24-42), the
body of the loop over the pipelines (`processPipeline`, lines 47-217), inside it the body of
the loop over the discovered manifests (`processManifest`, lines 122-214), and inside that
the pure part that rewrites a decoded manifest (`mergeManifest`, lines 130-189). -/

/-- The write `e.Pipelines[id].Report.Result = r`. -/
def setResult (e : Engine) (id : Nat) (r : Result) : Engine :=
  { e with Pipelines := e.Pipelines.modify (fun q => { q with Report := { Result := r } }) id }

/-- Lines 69-76: the scan directory, `cwd` being the working directory of the process. -/
def workDir (p : Pipeline) (cwd : String) : String :=
  if 0 < p.Config.Spec.AutoDiscovery.ScmId.length then
    match p.SCMs.lookup p.Config.Spec.AutoDiscovery.ScmId with
    | some autodiscoveryScm => autodiscoveryScm.Directory
    | none => cwd
  else cwd

/-- The error of line 81. -/
def mutuallyExclusiveError : Error :=
  "the `autodiscovery.pullrequestid` and `autodiscovery.actionid` keywords are mutually exclusive. Please use only `autodiscovery.actionid` as `autodiscovery.pullrequestid` is deprecated"

/-- Lines 78-88: the check for deprecated items, on the loop variable `p`. -/
def checkDeprecated (p : Pipeline) : Except Error Pipeline :=
  if p.Config.Spec.AutoDiscovery.PullrequestId ≠ "" then
    if p.Config.Spec.AutoDiscovery.ActionId ≠ "" then
      .error mutuallyExclusiveError
    else
      .ok { p with Config := { Spec := { p.Config.Spec with AutoDiscovery :=
        { p.Config.Spec.AutoDiscovery with
          ActionId := p.Config.Spec.AutoDiscovery.PullrequestId
          PullrequestId := "" } } } }
  else
    .ok p

/-- Lines 90-97: the action spec, if it exists (`actionConfig`, nil when absent). -/
def resolveAction (p : Pipeline) : Option ActionConfig :=
  if 0 < p.Config.Spec.AutoDiscovery.ActionId.length then
    match p.Actions.lookup p.Config.Spec.AutoDiscovery.ActionId with
    | some autodiscoveryAction => some autodiscoveryAction.Config
    | none => none
  else none

/-- Lines 130-155: the `switch` on `GroupBy`, giving the new `manifest.PipelineID`. -/
def groupPipelineID (p : Pipeline) (manifest : Spec) : String :=
  if p.Config.Spec.AutoDiscovery.GroupBy = GROUPBYALL ∨ p.Config.Spec.AutoDiscovery.GroupBy = "" then
    p.Config.Spec.PipelineID
  else if p.Config.Spec.AutoDiscovery.GroupBy = GROUPBYINDIVIDUAL then
    hexEncode (Sha256.sum (stringBytes (p.Config.Spec.PipelineID ++ "/" ++ manifest.Name)))
  else
    manifest.PipelineID

/-- Lines 157-160: a fresh map filled from `p.SCMs`. -/
def copySCMs (p : Pipeline) : GoMap ScmConfig :=
  p.SCMs.foldl (fun m kv => GoMap.store m kv.1 kv.2.Config) []

/-- The generic title of line 177. -/
def defaultActionTitle : String := "deps: bumping various version"

/-- Lines 164-183: the title written through the pointer `actionConfig`. -/
def defaultTitle (p : Pipeline) (actionConfig : ActionConfig) : ActionConfig :=
  if (p.Config.Spec.AutoDiscovery.GroupBy = GROUPBYALL ∨ p.Config.Spec.AutoDiscovery.GroupBy = "") ∧
      actionConfig.Title = "" then
    let named : ActionConfig := { actionConfig with Title := p.Config.Spec.Name }
    if named.Title = "" then { named with Title := defaultActionTitle } else named
  else
    actionConfig

/-- Lines 162-185: the action map of the manifest, and `*actionConfig` afterwards. -/
def injectAction (p : Pipeline) (actionConfig : Option ActionConfig) (manifest : Spec) :
    Spec × Option ActionConfig :=
  match actionConfig with
  | some ac =>
      ({ manifest with
          Actions := GoMap.store [] p.Config.Spec.AutoDiscovery.ScmId (defaultTitle p ac) },
        some (defaultTitle p ac))
  | none => (manifest, none)

/-- Lines 187-189: the version stamp. -/
def stampVersion (env : Env) (manifest : Spec) : Spec :=
  if manifest.Version ≠ "" then { manifest with Version := env.Version } else manifest

/-- Lines 130-189: the decoded manifest rewritten for parent `p`, and `*actionConfig`
afterwards. -/
def mergeManifest (env : Env) (p : Pipeline) (actionConfig : Option ActionConfig)
    (manifest : Spec) : Spec × Option ActionConfig :=
  let m1 : Spec := { manifest with PipelineID := groupPipelineID p manifest }
  let m2 : Spec := { m1 with SCMs := copySCMs p }
  let r := injectAction p actionConfig m2
  (stampVersion env r.1, r.2)

/-- The state of one pass over the manifests of a parent: the engine and the locals
`actionConfig` (what the pointer points to) and `errs`. -/
structure Pass where
  st : State
  actionConfig : Option ActionConfig
  errs : List Error

/-- Lines 122-214: one discovered manifest. -/
def processManifest (env : Env) (id : Nat) (p : Pipeline) (s : Pass) (b : Bytes) : Flow Pass :=
  match env.Unmarshal b with
  | .error err => .ret (some err) s
  | .ok decoded =>
    let r := mergeManifest env p s.actionConfig decoded
    let newConfig : Config := { Spec := r.1 }
    let st : State := { s.st with inits := s.st.inits ++ [newConfig] }
    match env.Init newConfig st.e.Options with
    | .ok (newPipeline, newConfig') =>
      let e1 : Engine := { st.e with
        Pipelines := st.e.Pipelines ++ [newPipeline]
        configurations := st.e.configurations ++ [newConfig'] }
      let e2 : Engine := if 0 < s.errs.length then setResult e1 id .FAILURE else e1
      .next { st := { st with e := e2 }, actionConfig := r.2, errs := s.errs }
    | .error err =>
      let e1 : Engine := setResult st.e id .FAILURE
      let errs := s.errs ++ [env.Quote r.1.Name ++ " - " ++ err]
      let e2 : Engine := if 0 < errs.length then setResult e1 id .FAILURE else e1
      .next { st := { st with e := e2 }, actionConfig := r.2, errs := errs }

/-- Lines 121-215: the loop over the discovered manifests. -/
def processManifests (env : Env) (id : Nat) (p : Pipeline) : List Bytes → Pass → Flow Pass
  | [], s => .next s
  | b :: bs, s =>
    match processManifest env id p s b with
    | .next s' => processManifests env id p bs s'
    | .ret err s' => .ret err s'

/-- Lines 99-217: the crawler, the manifests, the final report, for the loop variable `p`
after the check for deprecated items. -/
def discover (env : Env) (s : State) (id : Nat) (p : Pipeline) (workDir : String) : Flow State :=
  let spec := p.Config.Spec.AutoDiscovery
  let s1 : State := { s with news := s.news ++ [(spec, workDir)] }
  match env.New spec workDir with
  | .error err => .ret (some err) { s1 with e := setResult s1.e id .FAILURE }
  | .ok c =>
    let s2 : State := { s1 with runs := s1.runs ++ [c] }
    match env.Run c with
    | .error err => .ret (some err) { s2 with e := setResult s2.e id .FAILURE }
    | .ok bytesManifests =>
      match processManifests env id p bytesManifests
          { st := s2, actionConfig := resolveAction p, errs := [] } with
      | .ret err s3 => .ret err s3.st
      | .next s3 => .next { s3.st with e := setResult s3.st.e id .SUCCESS }

/-- Lines 47-217: the body of the loop over the pipelines; `p` is the copy the `range`
clause makes of the pipeline at index `id`. -/
def processPipeline (env : Env) (s : State) (id : Nat) (p : Pipeline) : Flow State :=
  if p.Config.Spec.AutoDiscovery.Crawlers = none then
    .next s
  else if !env.Experimental then
    .ret none s
  else
    match env.Getwd with
    | .error err => .ret (some ("failed getting current working directory due to " ++ err)) s
    | .ok cwd =>
      let workDir := workDir p cwd
      match checkDeprecated p with
      | .error err => .ret (some err) s
      | .ok p' => discover env s id p' workDir

/-- Lines 46-219: the loop `for id, p := range e.Pipelines`, over the elements the slice had
when the loop started, from index `id` on. -/
def rangePipelines (env : Env) : Nat → List Pipeline → State → Flow State
  | _, [], s => .next s
  | id, p :: ps, s =>
    match processPipeline env s id p with
    | .next s' => rangePipelines env (id + 1) ps s'
    | .ret err s' => .ret err s'

/-- Lines 29-34: the configuration of the default autodiscovery pipeline. -/
def defaultConfig (env : Env) : Config :=
  { Spec := { Spec.zero with Name := "Local AutoDiscovery", AutoDiscovery := env.DefaultCrawlerSpecs } }

/-- Lines 24-42: the default autodiscovery pipeline. -/
def bootstrap (env : Env) (s : State) : State :=
  let s1 : State := { s with inits := s.inits ++ [defaultConfig env] }
  match env.Init (defaultConfig env) Options.zero with
  | .error _ => s1
  | .ok (defaultPipeline, _) =>
    { s1 with e := { s1.e with Pipelines := s1.e.Pipelines ++ [defaultPipeline] } }

/-- The method `Engine.LoadAutoDiscovery`: the error returned (`none` for nil) and the
state left behind. -/
def LoadAutoDiscovery (env : Env) (defaultEnabled : Bool) (s : State) : Option Error × State :=
  let s1 := if defaultEnabled then bootstrap env s else s
  match rangePipelines env 0 s1.e.Pipelines s1 with
  | .next s2 => (none, s2)
  | .ret err s2 => (err, s2)

/-! ## A sample environment

Stand-ins for the collaborators, used to run the embedding on concrete inputs. -/

/-- A decoder that knows a handful of YAML documents. -/
def sampleUnmarshal : Bytes → Except Error Spec
  | "name: svc-a" => .ok { Spec.zero with Name := "svc-a" }
  | "name: svc-b" => .ok { Spec.zero with Name := "svc-b" }
  | "name: svc-a\nversion: 0.1.0\npipelineid: own" =>
      .ok { Spec.zero with Name := "svc-a", Version := "0.1.0", PipelineID := "own" }
  | "title: nameless" => .ok Spec.zero
  | _ => .error "yaml: unmarshal errors"

/-- Modelled from the spec: `pipeline.Pipeline.Init`, which is not part of the sources at
hand.  It validates the manifest (here: the required field `name` is present) and, on
success, builds the pipeline around the configuration it was given. -/
def sampleInit (config : Config) (_ : Options) : Except Error (Pipeline × Config) :=
  if config.Spec.Name = "" then
    .error "name: is required"
  else
    .ok ({ Name := config.Spec.Name
           Config := config
           SCMs := config.Spec.SCMs.map fun kv => (kv.1, { Config := kv.2, Directory := "/tmp/" ++ kv.1 })
           Actions := config.Spec.Actions.map fun kv => (kv.1, { Config := kv.2 })
           Report := { Result := .UNSET } }, config)

/-- A crawler runner that finds the manifests listed under the crawler kind of the same
name. -/
def sampleRun (c : Crawler) : Except Error (List Bytes) :=
  match c.spec.Crawlers with
  | some [("three", _)] => .ok ["name: svc-a", "title: nameless", "name: svc-b"]
  | some [("one", _)] => .ok ["name: svc-a"]
  | some [("twice", _)] => .ok ["name: svc-a\nversion: 0.1.0\npipelineid: own", "name: svc-a"]
  | some [("garbled", _)] => .ok ["name: svc-a", ":", "name: svc-b"]
  | some [("broken", _)] => .error "crawler failed"
  | _ => .ok []

/-- The sample environment, the experimental flag being `experimental`. -/
def sampleEnv (experimental : Bool) : Env :=
  { Experimental := experimental
    Getwd := .ok "/work"
    New := fun spec dir => .ok { spec := spec, rootDir := dir }
    Run := sampleRun
    Unmarshal := sampleUnmarshal
    Init := sampleInit
    Version := "v0.99.0"
    DefaultCrawlerSpecs := { AutoDiscoveryConfig.zero with Crawlers := some [("one", "")] }
    Quote := fun s => "\"" ++ s ++ "\"" }

/-- A parent pipeline with pipeline id `parent`, name `MyApp`, two SCMs and one action. -/
def sampleParent (crawler groupBy actionId pullrequestId : String) : Pipeline :=
  { Name := "MyApp"
    Config := { Spec := { Spec.zero with
      Name := "MyApp"
      PipelineID := "parent"
      AutoDiscovery :=
        { Crawlers := some [(crawler, "")], ScmId := "gh", ActionId := actionId,
          PullrequestId := pullrequestId, GroupBy := groupBy } } }
    SCMs := [("gh", { Config := { Rest := "cfgA" }, Directory := "/tmp/gh" }),
             ("gl", { Config := { Rest := "cfgB" }, Directory := "/tmp/gl" })]
    Actions := [("pr-1", { Config := { Title := "", Rest := "github" } })]
    Report := { Result := .UNSET } }

/-- An engine holding the given pipelines, before any call. -/
def sampleState (ps : List Pipeline) : State :=
  { e := { Pipelines := ps, configurations := [], Options := Options.zero },
    news := [], runs := [], inits := [] }

/-! ## Auxiliary definitions for the statements -/

/-- The pipeline `Init` builds from a configuration, if it succeeds. -/
def initPipeline? (env : Env) (options : Options) (config : Config) : Option Pipeline :=
  match env.Init config options with
  | .ok (newPipeline, _) => some newPipeline
  | .error _ => none

/-- The configuration `Init` leaves behind, if it succeeds. -/
def initConfig? (env : Env) (options : Options) (config : Config) : Option Config :=
  match env.Init config options with
  | .ok (_, newConfig) => some newConfig
  | .error _ => none

/-- The configurations the loop over the manifests hands to `Init`, in order, starting with
`actionConfig`: one per manifest up to the first that does not decode. -/
def handed (env : Env) (p : Pipeline) : Option ActionConfig → List Bytes → List Config
  | _, [] => []
  | actionConfig, b :: bs =>
    match env.Unmarshal b with
    | .error _ => []
    | .ok decoded =>
      { Spec := (mergeManifest env p actionConfig decoded).1 } ::
        handed env p (mergeManifest env p actionConfig decoded).2 bs

/-! ## A second sample: identifiers and names with a slash -/

/-- A decoder that knows the two manifests of the second sample. -/
def slashUnmarshal : Bytes → Except Error Spec
  | "name: nginx" => .ok { Spec.zero with Name := "nginx" }
  | "name: app/nginx" => .ok { Spec.zero with Name := "app/nginx" }
  | _ => .error "yaml: unmarshal errors"

/-- A crawler runner that finds one manifest, according to the crawler kind. -/
def slashRun (c : Crawler) : Except Error (List Bytes) :=
  match c.spec.Crawlers with
  | some [("first", _)] => .ok ["name: nginx"]
  | some [("second", _)] => .ok ["name: app/nginx"]
  | _ => .ok []

/-- The second sample environment: the experimental flag is set. -/
def slashEnv : Env :=
  { Experimental := true
    Getwd := .ok "/work"
    New := fun spec dir => .ok { spec := spec, rootDir := dir }
    Run := slashRun
    Unmarshal := slashUnmarshal
    Init := sampleInit
    Version := "v0.99.0"
    DefaultCrawlerSpecs := { AutoDiscoveryConfig.zero with Crawlers := some [("first", "")] }
    Quote := fun s => "\"" ++ s ++ "\"" }

/-- A parent pipeline in mode INDIVIDUAL with the given crawler kind and pipeline id. -/
def slashParent (crawler pipelineID : String) : Pipeline :=
  { Name := "parent " ++ pipelineID
    Config := { Spec := { Spec.zero with
      Name := "parent " ++ pipelineID
      PipelineID := pipelineID
      AutoDiscovery :=
        { Crawlers := some [(crawler, "")], ScmId := "", ActionId := "",
          PullrequestId := "", GroupBy := GROUPBYINDIVIDUAL } } }
    SCMs := []
    Actions := []
    Report := { Result := .UNSET } }

/-! ## Strings -/

theorem length_pos_iff_ne_empty (s : String) : 0 < s.length ↔ s ≠ "" := by
  rw [String.length, List.length_pos, ne_eq, ne_eq, String.ext_iff]

/-! ## The rewriting of a manifest -/

theorem defaultTitle_idem (p : Pipeline) (a : ActionConfig) :
    defaultTitle p (defaultTitle p a) = defaultTitle p a := by
  unfold defaultTitle
  by_cases h : (p.Config.Spec.AutoDiscovery.GroupBy = GROUPBYALL ∨
      p.Config.Spec.AutoDiscovery.GroupBy = "") ∧ a.Title = ""
  · by_cases hn : p.Config.Spec.Name = ""
    · simp [h, hn, defaultActionTitle]
    · simp [h, hn]
  · simp [h]

theorem mergeManifest_snd (env : Env) (p : Pipeline) (ac : Option ActionConfig) (m : Spec) :
    (mergeManifest env p ac m).2 = ac.map (defaultTitle p) := by
  cases ac <;> simp [mergeManifest, injectAction]

theorem mergeManifest_fst_map (env : Env) (p : Pipeline) (ac : Option ActionConfig) (m : Spec) :
    (mergeManifest env p (ac.map (defaultTitle p)) m).1 = (mergeManifest env p ac m).1 := by
  cases ac <;> simp [mergeManifest, injectAction, defaultTitle_idem]

theorem mergeManifest_name (env : Env) (p : Pipeline) (ac : Option ActionConfig) (m : Spec) :
    (mergeManifest env p ac m).1.Name = m.Name := by
  cases ac <;> simp only [mergeManifest, injectAction, stampVersion] <;> split <;> rfl

theorem mergeManifest_pipelineID (env : Env) (p : Pipeline) (ac : Option ActionConfig) (m : Spec) :
    (mergeManifest env p ac m).1.PipelineID = groupPipelineID p m := by
  cases ac <;> simp only [mergeManifest, injectAction, stampVersion] <;> split <;> rfl

theorem mergeManifest_actions_some (env : Env) (p : Pipeline) (a : ActionConfig) (m : Spec) :
    (mergeManifest env p (some a) m).1.Actions =
      [(p.Config.Spec.AutoDiscovery.ScmId, defaultTitle p a)] := by
  simp only [mergeManifest, injectAction, stampVersion]; split <;> rfl

theorem mergeManifest_actions_none (env : Env) (p : Pipeline) (m : Spec) :
    (mergeManifest env p none m).1.Actions = m.Actions := by
  simp only [mergeManifest, injectAction, stampVersion]; split <;> rfl

theorem mergeManifest_scms (env : Env) (p : Pipeline) (ac : Option ActionConfig) (m : Spec) :
    (mergeManifest env p ac m).1.SCMs = copySCMs p := by
  cases ac <;> simp only [mergeManifest, injectAction, stampVersion] <;> split <;> rfl

/-! ## The loop over the manifests -/

theorem mem_handed (env : Env) (p : Pipeline) (ac0 : Option ActionConfig) :
    ∀ (bs : List Bytes) (ac : Option ActionConfig),
      ac = ac0 ∨ ac = ac0.map (defaultTitle p) →
      ∀ c ∈ handed env p ac bs, ∃ b ∈ bs, ∃ m, env.Unmarshal b = .ok m ∧
        c = { Spec := (mergeManifest env p ac0 m).1 } := by
  intro bs
  induction bs with
  | nil => intro ac _ c hc; simp [handed] at hc
  | cons b bs ih =>
    intro ac hac c hc
    unfold handed at hc
    cases hb : env.Unmarshal b with
    | error err => simp [hb] at hc
    | ok m =>
      simp only [hb, List.mem_cons] at hc
      have hfst : (mergeManifest env p ac m).1 = (mergeManifest env p ac0 m).1 := by
        rcases hac with h | h
        · rw [h]
        · rw [h, mergeManifest_fst_map]
      rcases hc with hc | hc
      · exact ⟨b, List.mem_cons_self _ _, m, hb, by rw [hc, hfst]⟩
      · have hac' : (mergeManifest env p ac m).2 = ac0 ∨
            (mergeManifest env p ac m).2 = ac0.map (defaultTitle p) := by
          rw [mergeManifest_snd]
          rcases hac with h | h
          · right; rw [h]
          · right; rw [h]; cases ac0 <;> simp [defaultTitle_idem]
        obtain ⟨b', hb', m', hm', hc'⟩ := ih _ hac' c hc
        exact ⟨b', List.mem_cons_of_mem _ hb', m', hm', hc'⟩

theorem length_handed (env : Env) (p : Pipeline) :
    ∀ (bs : List Bytes) (ac : Option ActionConfig),
      (∀ b ∈ bs, ∃ m, env.Unmarshal b = .ok m) → (handed env p ac bs).length = bs.length := by
  intro bs
  induction bs with
  | nil => intro ac _; rfl
  | cons b bs ih =>
    intro ac h
    obtain ⟨m, hm⟩ := h b (List.mem_cons_self _ _)
    unfold handed
    simp only [hm, List.length_cons]
    rw [ih _ (fun b' hb' => h b' (List.mem_cons_of_mem _ hb'))]

theorem setResult_options (e : Engine) (id : Nat) (r : Result) :
    (setResult e id r).Options = e.Options := rfl

theorem setResult_configurations (e : Engine) (id : Nat) (r : Result) :
    (setResult e id r).configurations = e.configurations := rfl

theorem setResult_length (e : Engine) (id : Nat) (r : Result) :
    (setResult e id r).Pipelines.length = e.Pipelines.length := by
  simp [setResult]

theorem setResult_drop (e : Engine) (id n : Nat) (r : Result) (h : id < n) :
    (setResult e id r).Pipelines.drop n = e.Pipelines.drop n := by
  simp only [setResult]
  exact List.drop_modify_of_lt _ _ _ _ h

theorem setResult_result (e : Engine) (id : Nat) (r : Result) (h : id < e.Pipelines.length) :
    (setResult e id r).Pipelines[id]?.map (fun q => q.Report.Result) = some r := by
  simp [setResult, List.getElem?_eq_getElem h]

/-- The effect of one manifest that decodes: the configuration is handed to `Init`, and the
pipeline and the configuration are appended when `Init` succeeds. -/
theorem processManifest_ok (env : Env) (id : Nat) (p : Pipeline) (s : Pass) (b : Bytes)
    (m : Spec) (hm : env.Unmarshal b = .ok m) :
    ∃ s', processManifest env id p s b = .next s' ∧
      s'.actionConfig = (mergeManifest env p s.actionConfig m).2 ∧
      s'.st.inits = s.st.inits ++ [{ Spec := (mergeManifest env p s.actionConfig m).1 }] ∧
      s'.st.news = s.st.news ∧ s'.st.runs = s.st.runs ∧
      s'.st.e.Options = s.st.e.Options ∧
      s'.st.e.configurations = s.st.e.configurations ++
        (initConfig? env s.st.e.Options { Spec := (mergeManifest env p s.actionConfig m).1 }).toList ∧
      s'.st.e.Pipelines.length = s.st.e.Pipelines.length +
        (initPipeline? env s.st.e.Options
          { Spec := (mergeManifest env p s.actionConfig m).1 }).toList.length ∧
      ∀ n, id < n → n ≤ s.st.e.Pipelines.length →
        s'.st.e.Pipelines.drop n = s.st.e.Pipelines.drop n ++
          (initPipeline? env s.st.e.Options
            { Spec := (mergeManifest env p s.actionConfig m).1 }).toList := by
  unfold processManifest
  simp only [hm, initConfig?, initPipeline?]
  cases hi : env.Init { Spec := (mergeManifest env p s.actionConfig m).1 } s.st.e.Options with
  | error err =>
    refine ⟨_, rfl, rfl, rfl, rfl, rfl, ?_, ?_, ?_, ?_⟩
    · simp [setResult_options]
    · simp [setResult_configurations]
    · simp [setResult_length]
    · intro n h1 _
      simp [setResult_drop _ _ _ _ h1]
  | ok r =>
    obtain ⟨pl, c'⟩ := r
    refine ⟨_, rfl, rfl, rfl, rfl, rfl, ?_, ?_, ?_, ?_⟩
    · dsimp only; split <;> simp [setResult_options]
    · dsimp only; split <;> simp [setResult_configurations]
    · dsimp only; split <;> simp [setResult_length]
    · intro n h1 h2
      dsimp only
      split
      · rw [setResult_drop _ _ _ _ h1]; simp [List.drop_append_of_le_length h2]
      · simp [List.drop_append_of_le_length h2]

theorem processManifest_error (env : Env) (id : Nat) (p : Pipeline) (s : Pass) (b : Bytes)
    (err : Error) (hm : env.Unmarshal b = .error err) :
    processManifest env id p s b = .ret (some err) s := by
  unfold processManifest
  simp only [hm]

/-- The state the loop over the manifests ends in, whether it runs to its end or returns at
a manifest that does not decode. -/
theorem processManifests_state (env : Env) (id : Nat) (p : Pipeline) (n : Nat) (hid : id < n) :
    ∀ (bs : List Bytes) (s : Pass), n ≤ s.st.e.Pipelines.length →
      (processManifests env id p bs s).state.st.inits =
          s.st.inits ++ handed env p s.actionConfig bs ∧
      (processManifests env id p bs s).state.st.news = s.st.news ∧
      (processManifests env id p bs s).state.st.runs = s.st.runs ∧
      (processManifests env id p bs s).state.st.e.Options = s.st.e.Options ∧
      (processManifests env id p bs s).state.st.e.configurations =
          s.st.e.configurations ++
            (handed env p s.actionConfig bs).filterMap (initConfig? env s.st.e.Options) ∧
      (processManifests env id p bs s).state.st.e.Pipelines.length =
          s.st.e.Pipelines.length +
            ((handed env p s.actionConfig bs).filterMap (initPipeline? env s.st.e.Options)).length ∧
      (processManifests env id p bs s).state.st.e.Pipelines.drop n =
          s.st.e.Pipelines.drop n ++
            (handed env p s.actionConfig bs).filterMap (initPipeline? env s.st.e.Options) := by
  intro bs
  induction bs with
  | nil => intro s _; simp [processManifests, Flow.state, handed]
  | cons b bs ih =>
    intro s hn
    cases hb : env.Unmarshal b with
    | error err =>
      simp [processManifests, processManifest_error env id p s b err hb, Flow.state, handed, hb]
    | ok m =>
      obtain ⟨s', hs', hac, hin, hnews, hruns, hopt, hcfg, hlen, hdrop⟩ :=
        processManifest_ok env id p s b m hb
      have hn' : n ≤ s'.st.e.Pipelines.length := by omega
      obtain ⟨i1, i2, i3, i4, i5, i6, i7⟩ := ih s' hn'
      have hstep : processManifests env id p (b :: bs) s = processManifests env id p bs s' := by
        simp [processManifests, hs']
      rw [hstep]
      have hh : handed env p s.actionConfig (b :: bs) =
          { Spec := (mergeManifest env p s.actionConfig m).1 } ::
            handed env p s'.actionConfig bs := by
        simp [handed, hb, hac]
      rw [hh]
      refine ⟨?_, ?_, ?_, ?_, ?_, ?_, ?_⟩
      · rw [i1, hin]; simp
      · rw [i2, hnews]
      · rw [i3, hruns]
      · rw [i4, hopt]
      · rw [i5, hcfg, hopt, List.filterMap_cons]
        cases initConfig? env s.st.e.Options { Spec := (mergeManifest env p s.actionConfig m).1 } <;>
          simp
      · rw [i6, hlen, hopt, List.filterMap_cons]
        cases initPipeline? env s.st.e.Options { Spec := (mergeManifest env p s.actionConfig m).1 }
        · simp
        · simp; omega
      · rw [i7, hdrop n hid hn, hopt, List.filterMap_cons]
        cases initPipeline? env s.st.e.Options { Spec := (mergeManifest env p s.actionConfig m).1 } <;>
          simp

/-- The configurations handed to `Init` by the loop over the manifests, with no assumption
on the index. -/
theorem processManifests_inits (env : Env) (id : Nat) (p : Pipeline) :
    ∀ (bs : List Bytes) (s : Pass),
      (processManifests env id p bs s).state.st.inits =
        s.st.inits ++ handed env p s.actionConfig bs := by
  intro bs
  induction bs with
  | nil => intro s; simp [processManifests, Flow.state, handed]
  | cons b bs ih =>
    intro s
    cases hb : env.Unmarshal b with
    | error err =>
      simp [processManifests, processManifest_error env id p s b err hb, Flow.state, handed, hb]
    | ok m =>
      obtain ⟨s', hs', hac, hin, -⟩ := processManifest_ok env id p s b m hb
      have hstep : processManifests env id p (b :: bs) s = processManifests env id p bs s' := by
        simp [processManifests, hs']
      rw [hstep, ih s', hin]
      simp [handed, hb, hac]

/-- The loop over the manifests runs to its end when every manifest decodes. -/
theorem processManifests_next (env : Env) (id : Nat) (p : Pipeline) :
    ∀ (bs : List Bytes) (s : Pass), (∀ b ∈ bs, ∃ m, env.Unmarshal b = .ok m) →
      ∃ s', processManifests env id p bs s = .next s' := by
  intro bs
  induction bs with
  | nil => intro s _; exact ⟨s, rfl⟩
  | cons b bs ih =>
    intro s h
    obtain ⟨m, hm⟩ := h b (List.mem_cons_self _ _)
    obtain ⟨s', hs', -⟩ := processManifest_ok env id p s b m hm
    obtain ⟨s'', hs''⟩ := ih s' (fun b' hb' => h b' (List.mem_cons_of_mem _ hb'))
    exact ⟨s'', by simp [processManifests, hs', hs'']⟩

/-- In discovery order: when every manifest decodes, the configurations handed to `Init`
are, one for one, the decoded manifests rewritten for the parent. -/
theorem forall₂_handed (env : Env) (p : Pipeline) (ac0 : Option ActionConfig) :
    ∀ (bs : List Bytes) (ac : Option ActionConfig),
      ac = ac0 ∨ ac = ac0.map (defaultTitle p) →
      (∀ b ∈ bs, ∃ m, env.Unmarshal b = .ok m) →
      List.Forall₂ (fun b c => ∃ m, env.Unmarshal b = .ok m ∧
        c = { Spec := (mergeManifest env p ac0 m).1 }) bs (handed env p ac bs) := by
  intro bs
  induction bs with
  | nil => intro ac _ _; simp [handed]
  | cons b bs ih =>
    intro ac hac h
    obtain ⟨m, hm⟩ := h b (List.mem_cons_self _ _)
    have hfst : (mergeManifest env p ac m).1 = (mergeManifest env p ac0 m).1 := by
      rcases hac with h | h
      · rw [h]
      · rw [h, mergeManifest_fst_map]
    have hac' : (mergeManifest env p ac m).2 = ac0 ∨
        (mergeManifest env p ac m).2 = ac0.map (defaultTitle p) := by
      rw [mergeManifest_snd]
      rcases hac with h | h
      · right; rw [h]
      · right; rw [h]; cases ac0 <;> simp [defaultTitle_idem]
    have hh : handed env p ac (b :: bs) =
        { Spec := (mergeManifest env p ac m).1 } :: handed env p (mergeManifest env p ac m).2 bs := by
      simp [handed, hm]
    rw [hh]
    refine List.Forall₂.cons ⟨m, hm, by rw [hfst]⟩ ?_
    exact ih _ hac' (fun b' hb' => h b' (List.mem_cons_of_mem _ hb'))

theorem length_filterMap_add_countP {α β : Type} (f : α → Option β) (l : List α) :
    (l.filterMap f).length + l.countP (fun a => (f a).isNone) = l.length := by
  induction l with
  | nil => rfl
  | cons a l ih =>
    rw [List.filterMap_cons, List.countP_cons]
    cases h : f a with
    | none => simp; omega
    | some b => simp; omega

/-! ## The body of the loop over the pipelines -/

theorem checkDeprecated_ok (p p' : Pipeline) (h : checkDeprecated p = .ok p') :
    p'.Config.Spec.PipelineID = p.Config.Spec.PipelineID ∧
    p'.Config.Spec.Name = p.Config.Spec.Name ∧
    p'.Config.Spec.AutoDiscovery.GroupBy = p.Config.Spec.AutoDiscovery.GroupBy ∧
    p'.Config.Spec.AutoDiscovery.ScmId = p.Config.Spec.AutoDiscovery.ScmId ∧
    p'.Config.Spec.AutoDiscovery.Crawlers = p.Config.Spec.AutoDiscovery.Crawlers ∧
    p'.SCMs = p.SCMs ∧ p'.Actions = p.Actions ∧ p'.Name = p.Name ∧ p'.Report = p.Report := by
  unfold checkDeprecated at h
  split at h
  · split at h
    · cases h
    · injection h with h; subst h; simp
  · injection h with h; subst h; simp

theorem groupPipelineID_congr (p p' : Pipeline) (m : Spec)
    (h1 : p'.Config.Spec.PipelineID = p.Config.Spec.PipelineID)
    (h2 : p'.Config.Spec.AutoDiscovery.GroupBy = p.Config.Spec.AutoDiscovery.GroupBy) :
    groupPipelineID p' m = groupPipelineID p m := by
  simp only [groupPipelineID, h1, h2]

theorem defaultTitle_congr (p p' : Pipeline) (a : ActionConfig)
    (h1 : p'.Config.Spec.Name = p.Config.Spec.Name)
    (h2 : p'.Config.Spec.AutoDiscovery.GroupBy = p.Config.Spec.AutoDiscovery.GroupBy) :
    defaultTitle p' a = defaultTitle p a := by
  simp only [defaultTitle, h1, h2]

/-- The state in which the crawl of a parent ends, however it ends: what was handed to
`Init` and what was appended. -/
theorem discover_state (env : Env) (s : State) (id : Nat) (p : Pipeline) (wd : String)
    (hid : id < s.e.Pipelines.length) :
    ∃ bs : List Bytes,
      (discover env s id p wd).state.inits = s.inits ++ handed env p (resolveAction p) bs ∧
      (discover env s id p wd).state.e.Options = s.e.Options ∧
      (discover env s id p wd).state.e.configurations = s.e.configurations ++
        (handed env p (resolveAction p) bs).filterMap (initConfig? env s.e.Options) ∧
      (discover env s id p wd).state.e.Pipelines.length = s.e.Pipelines.length +
        ((handed env p (resolveAction p) bs).filterMap (initPipeline? env s.e.Options)).length ∧
      (discover env s id p wd).state.e.Pipelines.drop s.e.Pipelines.length =
        (handed env p (resolveAction p) bs).filterMap (initPipeline? env s.e.Options) := by
  cases hnew : env.New p.Config.Spec.AutoDiscovery wd with
  | error err =>
    refine ⟨[], ?_⟩
    simp [discover, hnew, Flow.state, handed, setResult_options, setResult_configurations,
      setResult_length, setResult_drop _ _ _ _ hid]
  | ok c =>
    cases hrun : env.Run c with
    | error err =>
      refine ⟨[], ?_⟩
      simp [discover, hnew, hrun, Flow.state, handed, setResult_options,
        setResult_configurations, setResult_length, setResult_drop _ _ _ _ hid]
    | ok bs =>
      refine ⟨bs, ?_⟩
      simp only [discover, hnew, hrun]
      obtain ⟨i1, -, -, i4, i5, i6, i7⟩ := processManifests_state env id p s.e.Pipelines.length hid bs
        { st := { s with news := s.news ++ [(p.Config.Spec.AutoDiscovery, wd)], runs := s.runs ++ [c] },
          actionConfig := resolveAction p, errs := [] } (Nat.le_refl _)
      dsimp only at i1 i4 i5 i6 i7 ⊢
      cases hpm : processManifests env id p bs
        { st := { s with news := s.news ++ [(p.Config.Spec.AutoDiscovery, wd)], runs := s.runs ++ [c] },
          actionConfig := resolveAction p, errs := [] } with
      | ret err s3 =>
        rw [hpm] at i1 i4 i5 i6 i7
        simp only [Flow.state] at i1 i4 i5 i6 i7 ⊢
        simp only [List.drop_length, List.nil_append] at i7
        exact ⟨i1, i4, i5, i6, i7⟩
      | next s3 =>
        rw [hpm] at i1 i4 i5 i6 i7
        simp only [Flow.state] at i1 i4 i5 i6 i7 ⊢
        simp only [List.drop_length, List.nil_append] at i7
        refine ⟨i1, ?_, ?_, ?_, ?_⟩
        · rw [setResult_options, i4]
        · rw [setResult_configurations, i5]
        · rw [setResult_length, i6]
        · rw [setResult_drop _ _ _ _ hid, i7]

/-- The configurations handed to `Init` during the crawl of a parent, with no assumption on
the index. -/
theorem discover_inits (env : Env) (s : State) (id : Nat) (p : Pipeline) (wd : String) :
    ∃ bs : List Bytes,
      (discover env s id p wd).state.inits = s.inits ++ handed env p (resolveAction p) bs := by
  cases hnew : env.New p.Config.Spec.AutoDiscovery wd with
  | error err => exact ⟨[], by simp [discover, hnew, Flow.state, handed]⟩
  | ok c =>
    cases hrun : env.Run c with
    | error err => exact ⟨[], by simp [discover, hnew, hrun, Flow.state, handed]⟩
    | ok bs =>
      refine ⟨bs, ?_⟩
      simp only [discover, hnew, hrun]
      have i1 := processManifests_inits env id p bs
        { st := { s with news := s.news ++ [(p.Config.Spec.AutoDiscovery, wd)], runs := s.runs ++ [c] },
          actionConfig := resolveAction p, errs := [] }
      dsimp only at i1 ⊢
      cases hpm : processManifests env id p bs
        { st := { s with news := s.news ++ [(p.Config.Spec.AutoDiscovery, wd)], runs := s.runs ++ [c] },
          actionConfig := resolveAction p, errs := [] } with
      | ret err s3 => rw [hpm] at i1; simpa [Flow.state] using i1
      | next s3 => rw [hpm] at i1; simpa [Flow.state] using i1

/-- The crawl of a parent that runs to its end. -/
theorem discover_next (env : Env) (s : State) (id : Nat) (p : Pipeline) (wd : String)
    (c : Crawler) (bs : List Bytes) (hid : id < s.e.Pipelines.length)
    (hnew : env.New p.Config.Spec.AutoDiscovery wd = .ok c) (hrun : env.Run c = .ok bs)
    (hdec : ∀ b ∈ bs, ∃ m, env.Unmarshal b = .ok m) :
    ∃ s', discover env s id p wd = .next s' ∧
      s'.inits = s.inits ++ handed env p (resolveAction p) bs ∧
      s'.news = s.news ++ [(p.Config.Spec.AutoDiscovery, wd)] ∧
      s'.runs = s.runs ++ [c] ∧
      s'.e.Options = s.e.Options ∧
      s'.e.configurations = s.e.configurations ++
        (handed env p (resolveAction p) bs).filterMap (initConfig? env s.e.Options) ∧
      s'.e.Pipelines.length = s.e.Pipelines.length +
        ((handed env p (resolveAction p) bs).filterMap (initPipeline? env s.e.Options)).length ∧
      s'.e.Pipelines.drop s.e.Pipelines.length =
        (handed env p (resolveAction p) bs).filterMap (initPipeline? env s.e.Options) ∧
      s'.e.Pipelines[id]?.map (fun q => q.Report.Result) = some .SUCCESS := by
  obtain ⟨s3, hs3⟩ := processManifests_next env id p bs
    { st := { s with news := s.news ++ [(p.Config.Spec.AutoDiscovery, wd)], runs := s.runs ++ [c] },
      actionConfig := resolveAction p, errs := [] } hdec
  obtain ⟨i1, i2, i3, i4, i5, i6, i7⟩ := processManifests_state env id p s.e.Pipelines.length hid bs
    { st := { s with news := s.news ++ [(p.Config.Spec.AutoDiscovery, wd)], runs := s.runs ++ [c] },
      actionConfig := resolveAction p, errs := [] } (Nat.le_refl _)
  rw [hs3] at i1 i2 i3 i4 i5 i6 i7
  simp only [Flow.state, List.drop_length, List.nil_append] at i1 i2 i3 i4 i5 i6 i7
  refine ⟨{ s3.st with e := setResult s3.st.e id .SUCCESS }, ?_, i1, i2, i3, ?_, ?_, ?_, ?_, ?_⟩
  · simp only [discover, hnew, hrun, hs3]
  · rw [setResult_options, i4]
  · rw [setResult_configurations, i5]
  · rw [setResult_length, i6]
  · rw [setResult_drop _ _ _ _ hid, i7]
  · exact setResult_result _ _ _ (by omega)

theorem processPipeline_discover (env : Env) (s : State) (id : Nat) (p p' : Pipeline)
    (cwd : String) (hcrawlers : p.Config.Spec.AutoDiscovery.Crawlers ≠ none)
    (hexp : env.Experimental = true) (hwd : env.Getwd = .ok cwd)
    (hdep : checkDeprecated p = .ok p') :
    processPipeline env s id p = discover env s id p' (workDir p cwd) := by
  simp [processPipeline, hcrawlers, hexp, hwd, hdep]

/-- The body of the loop either leaves the state as it is or is the crawl of the parent
after the check for deprecated items. -/
theorem processPipeline_cases (env : Env) (s : State) (id : Nat) (p : Pipeline) :
    (processPipeline env s id p).state = s ∨
      ∃ p' cwd, p.Config.Spec.AutoDiscovery.Crawlers ≠ none ∧ env.Experimental = true ∧
        env.Getwd = .ok cwd ∧ checkDeprecated p = .ok p' ∧
        processPipeline env s id p = discover env s id p' (workDir p cwd) := by
  by_cases hc : p.Config.Spec.AutoDiscovery.Crawlers = none
  · left; simp [processPipeline, hc, Flow.state]
  · cases hexp : env.Experimental with
    | false => left; simp [processPipeline, hc, hexp, Flow.state]
    | true =>
      cases hwd : env.Getwd with
      | error err => left; simp [processPipeline, hc, hexp, hwd, Flow.state]
      | ok cwd =>
        cases hdep : checkDeprecated p with
        | error err => left; simp [processPipeline, hc, hexp, hwd, hdep, Flow.state]
        | ok p' =>
          right
          exact ⟨p', cwd, hc, rfl, rfl, rfl, processPipeline_discover env s id p p' cwd hc hexp hwd hdep⟩

/-- Every configuration handed to `Init` during the pass of a parent is a decoded manifest
rewritten with the parent after the check for deprecated items and the action resolved
for it. -/
theorem processPipeline_handed (env : Env) (s : State) (id : Nat) (p : Pipeline) :
    ∀ c ∈ (processPipeline env s id p).state.inits.drop s.inits.length,
      ∃ p' b m, checkDeprecated p = .ok p' ∧ env.Unmarshal b = .ok m ∧
        c = { Spec := (mergeManifest env p' (resolveAction p') m).1 } := by
  intro c hc
  rcases processPipeline_cases env s id p with h | ⟨p', cwd, -, -, -, hdep, h⟩
  · rw [h] at hc; simp at hc
  · rw [h] at hc
    obtain ⟨bs, hbs⟩ := discover_inits env s id p' (workDir p cwd)
    rw [hbs, List.drop_left] at hc
    obtain ⟨b, -, m, hm, hcm⟩ := mem_handed env p' (resolveAction p') bs _ (Or.inl rfl) c hc
    exact ⟨p', b, m, hdep, hm, hcm⟩

/-- What the pass of a parent appends: the pipelines and configurations of the
configurations handed to `Init` for which `Init` succeeds, in order. -/
theorem processPipeline_appended (env : Env) (s : State) (id : Nat) (p : Pipeline)
    (hid : id < s.e.Pipelines.length) :
    ∃ cs, (processPipeline env s id p).state.inits = s.inits ++ cs ∧
      (processPipeline env s id p).state.e.Options = s.e.Options ∧
      (processPipeline env s id p).state.e.configurations =
        s.e.configurations ++ cs.filterMap (initConfig? env s.e.Options) ∧
      (processPipeline env s id p).state.e.Pipelines.length =
        s.e.Pipelines.length + (cs.filterMap (initPipeline? env s.e.Options)).length ∧
      (processPipeline env s id p).state.e.Pipelines.drop s.e.Pipelines.length =
        cs.filterMap (initPipeline? env s.e.Options) := by
  rcases processPipeline_cases env s id p with h | ⟨p', cwd, -, -, -, -, h⟩
  · exact ⟨[], by simp [h]⟩
  · rw [h]
    obtain ⟨bs, h1, h2, h3, h4, h5⟩ := discover_state env s id p' (workDir p cwd) hid
    exact ⟨_, h1, h2, h3, h4, h5⟩

theorem mem_filterMap_initPipeline? (env : Env) (o : Options) (cs : List Config) (pl : Pipeline)
    (h : pl ∈ cs.filterMap (initPipeline? env o)) :
    ∃ c ∈ cs, ∃ c', env.Init c o = .ok (pl, c') := by
  rw [List.mem_filterMap] at h
  obtain ⟨c, hc, hpl⟩ := h
  refine ⟨c, hc, ?_⟩
  unfold initPipeline? at hpl
  split at hpl
  · next newPipeline c' heq =>
    injection hpl with hpl
    subst hpl
    exact ⟨c', heq⟩
  · cases hpl

/-- In mode ALL or empty every manifest handed to `Init` has the identifier of the parent. -/
theorem all_mode_parent_id_aux (env : Env) (s : State) (id : Nat) (p : Pipeline)
    (hmode : p.Config.Spec.AutoDiscovery.GroupBy = GROUPBYALL ∨
      p.Config.Spec.AutoDiscovery.GroupBy = "") :
    ∀ c ∈ (processPipeline env s id p).state.inits.drop s.inits.length,
      c.Spec.PipelineID = p.Config.Spec.PipelineID := by
  intro c hc
  obtain ⟨p', b, m, hdep, -, hcm⟩ := processPipeline_handed env s id p c hc
  obtain ⟨e1, -, e3, -⟩ := checkDeprecated_ok p p' hdep
  rw [hcm]
  dsimp only
  rw [mergeManifest_pipelineID, groupPipelineID_congr p p' m e1 e3]
  simp [groupPipelineID, hmode]

theorem groupPipelineID_individual (p : Pipeline) (m : Spec)
    (hmode : p.Config.Spec.AutoDiscovery.GroupBy = GROUPBYINDIVIDUAL) :
    groupPipelineID p m =
      hexEncode (Sha256.sum (stringBytes (p.Config.Spec.PipelineID ++ "/" ++ m.Name))) := by
  have hne : ¬ (GROUPBYINDIVIDUAL = GROUPBYALL ∨ GROUPBYINDIVIDUAL = "") := by decide
  simp only [groupPipelineID, hmode, hne, if_false, if_true]

/-- In mode INDIVIDUAL every manifest handed to `Init` has the digest of the identifier of
the parent and of its own name. -/
theorem individual_id_aux (env : Env) (s : State) (id : Nat) (p : Pipeline)
    (hmode : p.Config.Spec.AutoDiscovery.GroupBy = GROUPBYINDIVIDUAL) :
    ∀ c ∈ (processPipeline env s id p).state.inits.drop s.inits.length,
      c.Spec.PipelineID =
        hexEncode (Sha256.sum (stringBytes (p.Config.Spec.PipelineID ++ "/" ++ c.Spec.Name))) := by
  intro c hc
  obtain ⟨p', b, m, hdep, -, hcm⟩ := processPipeline_handed env s id p c hc
  obtain ⟨e1, -, e3, -⟩ := checkDeprecated_ok p p' hdep
  have hname : c.Spec.Name = m.Name := by rw [hcm]; exact mergeManifest_name env p' _ m
  rw [hname, hcm]
  dsimp only
  rw [mergeManifest_pipelineID, groupPipelineID_congr p p' m e1 e3,
    groupPipelineID_individual p m hmode]

/-- The sample `Init` builds the pipeline around the configuration it is given. -/
theorem sampleInit_pipelineID : ∀ c o pl c', (sampleEnv true).Init c o = .ok (pl, c') →
    pl.Config.Spec.PipelineID = c.Spec.PipelineID := by
  intro c o pl c' h
  simp only [sampleEnv, sampleInit] at h
  split at h
  · cases h
  · injection h with h
    injection h with h1 h2
    subst h1
    rfl

/-! ## The loop over the pipelines -/

theorem rangePipelines_append (env : Env) :
    ∀ (pre : List Pipeline) (id : Nat) (rest : List Pipeline) (s : State),
      rangePipelines env id (pre ++ rest) s =
        match rangePipelines env id pre s with
        | .next s₁ => rangePipelines env (id + pre.length) rest s₁
        | .ret err s₁ => .ret err s₁ := by
  intro pre
  induction pre with
  | nil => intro id rest s; simp [rangePipelines]
  | cons p pre ih =>
    intro id rest s
    simp only [List.cons_append, rangePipelines, List.length_cons]
    cases processPipeline env s id p with
    | ret err s₁ => rfl
    | next s₁ =>
      have h := ih (id + 1) rest s₁
      have hlen : id + 1 + pre.length = id + (pre.length + 1) := by omega
      rw [hlen] at h
      exact h

/-- With the experimental flag disabled the body of the loop leaves the state as it is and
returns no error. -/
theorem processPipeline_disabled (env : Env) (s : State) (id : Nat) (p : Pipeline)
    (hexp : env.Experimental = false) :
    processPipeline env s id p = .next s ∨ processPipeline env s id p = .ret none s := by
  by_cases hc : p.Config.Spec.AutoDiscovery.Crawlers = none
  · left; simp [processPipeline, hc]
  · right; simp [processPipeline, hc, hexp]

theorem rangePipelines_disabled (env : Env) (hexp : env.Experimental = false) :
    ∀ (ps : List Pipeline) (id : Nat) (s : State),
      rangePipelines env id ps s = .next s ∨ rangePipelines env id ps s = .ret none s := by
  intro ps
  induction ps with
  | nil => intro id s; left; rfl
  | cons p ps ih =>
    intro id s
    rcases processPipeline_disabled env s id p hexp with h | h
    · simp only [rangePipelines, h]; exact ih (id + 1) s
    · right; simp only [rangePipelines, h]

theorem bootstrap_state (env : Env) (s : State) :
    (bootstrap env s).e.Pipelines =
        s.e.Pipelines ++ (initPipeline? env Options.zero (defaultConfig env)).toList ∧
    (bootstrap env s).e.configurations = s.e.configurations ∧
    (bootstrap env s).e.Options = s.e.Options ∧
    (bootstrap env s).news = s.news ∧ (bootstrap env s).runs = s.runs := by
  unfold bootstrap initPipeline?
  cases env.Init (defaultConfig env) Options.zero with
  | error err => simp
  | ok r => obtain ⟨pl, c'⟩ := r; simp

/-- A parent with both `actionid` and `pullrequestid` set makes the body of the loop return
before any crawler is constructed, with the state as it found it. -/
theorem processPipeline_mutually_exclusive (env : Env) (s : State) (id : Nat) (p : Pipeline)
    (hexp : env.Experimental = true)
    (hcrawlers : p.Config.Spec.AutoDiscovery.Crawlers ≠ none)
    (hA : p.Config.Spec.AutoDiscovery.ActionId ≠ "")
    (hP : p.Config.Spec.AutoDiscovery.PullrequestId ≠ "") :
    ∃ err, processPipeline env s id p = .ret (some err) s ∧
      ∀ cwd, env.Getwd = .ok cwd → err = mutuallyExclusiveError := by
  cases hwd : env.Getwd with
  | error e =>
    exact ⟨"failed getting current working directory due to " ++ e,
      by simp [processPipeline, hcrawlers, hexp, hwd], fun cwd h => by cases h⟩
  | ok cwd =>
    exact ⟨mutuallyExclusiveError,
      by simp [processPipeline, hcrawlers, hexp, hwd, checkDeprecated, hA, hP], fun _ _ => rfl⟩

/-! ## The action handed to the manifests -/

/-- When an action is resolved for the parent, every manifest handed to `Init` has the one
action entry written at line 184. -/
theorem handed_actions_some (env : Env) (s : State) (id : Nat) (p p' : Pipeline)
    (a : ActionConfig) (hdep : checkDeprecated p = .ok p') (hres : resolveAction p' = some a) :
    ∀ c ∈ (processPipeline env s id p).state.inits.drop s.inits.length,
      c.Spec.Actions = [(p.Config.Spec.AutoDiscovery.ScmId, defaultTitle p a)] := by
  intro c hc
  obtain ⟨p'', b, m, hdep', -, hcm⟩ := processPipeline_handed env s id p c hc
  rw [hdep] at hdep'
  injection hdep' with hdep'
  subst hdep'
  obtain ⟨-, e2, e3, e4, -⟩ := checkDeprecated_ok p p' hdep
  rw [hcm, hres]
  dsimp only
  rw [mergeManifest_actions_some, e4, defaultTitle_congr p p' a e2 e3]

/-- When no action is resolved for the parent, the action map of a manifest handed to `Init`
is the one it was decoded with. -/
theorem handed_actions_none (env : Env) (s : State) (id : Nat) (p p' : Pipeline)
    (hdep : checkDeprecated p = .ok p') (hres : resolveAction p' = none) :
    ∀ c ∈ (processPipeline env s id p).state.inits.drop s.inits.length,
      ∃ b m, env.Unmarshal b = .ok m ∧ c.Spec.Actions = m.Actions := by
  intro c hc
  obtain ⟨p'', b, m, hdep', hm, hcm⟩ := processPipeline_handed env s id p c hc
  rw [hdep] at hdep'
  injection hdep' with hdep'
  subst hdep'
  refine ⟨b, m, hm, ?_⟩
  rw [hcm, hres]
  dsimp only
  rw [mergeManifest_actions_none]

/-! ## The SCM map of the discovered manifests -/

theorem store_of_not_mem {V : Type} (m : GoMap V) (k : String) (v : V)
    (h : k ∉ GoMap.keys m) : GoMap.store m k v = m ++ [(k, v)] := by
  induction m with
  | nil => rfl
  | cons kv m ih =>
    obtain ⟨k', v'⟩ := kv
    simp only [GoMap.keys, List.map_cons, List.mem_cons, not_or] at h
    have hne : ¬ k' = k := fun e => h.1 e.symm
    simp only [GoMap.store, hne, if_false, List.cons_append]
    rw [ih h.2]

/-- Filling a map from a map without repeated keys copies it entry by entry. -/
theorem foldl_store_eq (l : GoMap Scm) :
    ∀ acc : GoMap ScmConfig, (GoMap.keys l).Nodup → (∀ k ∈ GoMap.keys l, k ∉ GoMap.keys acc) →
      l.foldl (fun m kv => GoMap.store m kv.1 kv.2.Config) acc =
        acc ++ l.map (fun kv => (kv.1, kv.2.Config)) := by
  induction l with
  | nil => intro acc _ _; simp
  | cons kv l ih =>
    intro acc hnd hdisj
    simp only [GoMap.keys, List.map_cons, List.nodup_cons] at hnd
    have hk : kv.1 ∉ GoMap.keys acc := hdisj kv.1 (by simp [GoMap.keys])
    simp only [List.foldl_cons, List.map_cons]
    rw [store_of_not_mem acc kv.1 kv.2.Config hk, ih _ hnd.2]
    · simp
    · intro k hkl hkacc
      simp only [GoMap.keys, List.map_append, List.map_cons, List.map_nil, List.mem_append,
        List.mem_singleton] at hkacc
      rcases hkacc with h | h
      · exact hdisj k (by simp only [GoMap.keys, List.map_cons, List.mem_cons]; exact Or.inr hkl) h
      · rw [h] at hkl; exact hnd.1 hkl

theorem copySCMs_eq_map (p : Pipeline) (h : (GoMap.keys p.SCMs).Nodup) :
    copySCMs p = p.SCMs.map (fun kv => (kv.1, kv.2.Config)) := by
  unfold copySCMs
  rw [foldl_store_eq p.SCMs [] h (by intro k _; simp [GoMap.keys])]
  simp

theorem keys_map_snd {V W : Type} (m : GoMap V) (g : V → W) :
    GoMap.keys (m.map (fun kv => (kv.1, g kv.2))) = GoMap.keys m := by
  simp [GoMap.keys, Function.comp_def]

theorem lookup_map_snd {V W : Type} (m : GoMap V) (g : V → W) (k : String) :
    GoMap.lookup (m.map (fun kv => (kv.1, g kv.2))) k = (GoMap.lookup m k).map g := by
  induction m with
  | nil => rfl
  | cons kv m ih =>
    obtain ⟨k', v⟩ := kv
    simp only [List.map_cons, GoMap.lookup]
    split
    · rfl
    · exact ih

/-! ## What a pass leaves of the pipelines it finds -/

theorem setResult_getElem?_map {β : Type} (g : Pipeline → β)
    (hg : ∀ q r, g { q with Report := { Result := r } } = g q)
    (e : Engine) (id : Nat) (r : Result) (j : Nat) :
    (setResult e id r).Pipelines[j]?.map g = e.Pipelines[j]?.map g := by
  simp only [setResult, List.getElem?_modify]
  cases e.Pipelines[j]? with
  | none => rfl
  | some q =>
    by_cases h : id = j
    · simp [h, hg]
    · simp [h]

/-- One manifest changes nothing but the report in the pipelines it finds. -/
theorem processManifest_frame {β : Type} (g : Pipeline → β)
    (hg : ∀ q r, g { q with Report := { Result := r } } = g q)
    (env : Env) (id : Nat) (p : Pipeline) (s : Pass) (b : Bytes) (j : Nat)
    (hj : j < s.st.e.Pipelines.length) :
    (processManifest env id p s b).state.st.e.Pipelines[j]?.map g =
      s.st.e.Pipelines[j]?.map g := by
  unfold processManifest
  cases hb : env.Unmarshal b with
  | error err => rfl
  | ok m =>
    dsimp only
    cases hi : env.Init { Spec := (mergeManifest env p s.actionConfig m).1 } s.st.e.Options with
    | error err =>
      simp only [Flow.state]
      split
      · rw [setResult_getElem?_map g hg, setResult_getElem?_map g hg]
      · rw [setResult_getElem?_map g hg]
    | ok r =>
      obtain ⟨pl, c'⟩ := r
      simp only [Flow.state]
      split
      · rw [setResult_getElem?_map g hg]
        dsimp only
        rw [List.getElem?_append_left hj]
      · dsimp only
        rw [List.getElem?_append_left hj]

theorem processManifest_length_le (env : Env) (id : Nat) (p : Pipeline) (s : Pass) (b : Bytes) :
    s.st.e.Pipelines.length ≤ (processManifest env id p s b).state.st.e.Pipelines.length := by
  cases hb : env.Unmarshal b with
  | error err => rw [processManifest_error env id p s b err hb]; exact Nat.le_refl _
  | ok m =>
    obtain ⟨s', hs', -, -, -, -, -, -, hlen, -⟩ := processManifest_ok env id p s b m hb
    rw [hs']
    simp only [Flow.state]
    omega

theorem processManifests_frame {β : Type} (g : Pipeline → β)
    (hg : ∀ q r, g { q with Report := { Result := r } } = g q)
    (env : Env) (id : Nat) (p : Pipeline) (j : Nat) :
    ∀ (bs : List Bytes) (s : Pass), j < s.st.e.Pipelines.length →
      (processManifests env id p bs s).state.st.e.Pipelines[j]?.map g =
        s.st.e.Pipelines[j]?.map g := by
  intro bs
  induction bs with
  | nil => intro s _; rfl
  | cons b bs ih =>
    intro s hj
    have hframe := processManifest_frame g hg env id p s b j hj
    have hlen := processManifest_length_le env id p s b
    cases hpm : processManifest env id p s b with
    | ret err s' =>
      rw [hpm] at hframe
      simp only [processManifests, hpm]
      exact hframe
    | next s' =>
      rw [hpm] at hframe hlen
      simp only [Flow.state] at hframe hlen
      simp only [processManifests, hpm]
      rw [ih s' (by omega), hframe]

theorem discover_frame {β : Type} (g : Pipeline → β)
    (hg : ∀ q r, g { q with Report := { Result := r } } = g q)
    (env : Env) (s : State) (id : Nat) (p : Pipeline) (wd : String) (j : Nat)
    (hj : j < s.e.Pipelines.length) :
    (discover env s id p wd).state.e.Pipelines[j]?.map g = s.e.Pipelines[j]?.map g := by
  cases hnew : env.New p.Config.Spec.AutoDiscovery wd with
  | error err =>
    simp only [discover, hnew, Flow.state]
    exact setResult_getElem?_map g hg _ _ _ _
  | ok c =>
    cases hrun : env.Run c with
    | error err =>
      simp only [discover, hnew, hrun, Flow.state]
      exact setResult_getElem?_map g hg _ _ _ _
    | ok bs =>
      have h := processManifests_frame g hg env id p j bs
        { st := { s with news := s.news ++ [(p.Config.Spec.AutoDiscovery, wd)], runs := s.runs ++ [c] },
          actionConfig := resolveAction p, errs := [] } hj
      simp only [discover, hnew, hrun]
      cases hpm : processManifests env id p bs
        { st := { s with news := s.news ++ [(p.Config.Spec.AutoDiscovery, wd)], runs := s.runs ++ [c] },
          actionConfig := resolveAction p, errs := [] } with
      | ret err s3 => rw [hpm] at h; exact h
      | next s3 =>
        rw [hpm] at h
        simp only [Flow.state] at h ⊢
        rw [setResult_getElem?_map g hg]
        exact h

/-- The pass of a parent changes nothing but the report in the pipelines it finds in the
collection. -/
theorem processPipeline_frame {β : Type} (g : Pipeline → β)
    (hg : ∀ q r, g { q with Report := { Result := r } } = g q)
    (env : Env) (s : State) (id : Nat) (p : Pipeline) (j : Nat)
    (hj : j < s.e.Pipelines.length) :
    (processPipeline env s id p).state.e.Pipelines[j]?.map g = s.e.Pipelines[j]?.map g := by
  rcases processPipeline_cases env s id p with h | ⟨p', cwd, -, -, -, -, h⟩
  · rw [h]
  · rw [h]
    exact discover_frame g hg env s id p' (workDir p cwd) j hj

/-- Every manifest handed to `Init` during the pass of a parent has the SCM map filled from
the parent. -/
theorem handed_scms (env : Env) (s : State) (id : Nat) (p : Pipeline) :
    ∀ c ∈ (processPipeline env s id p).state.inits.drop s.inits.length,
      c.Spec.SCMs = copySCMs p := by
  intro c hc
  obtain ⟨p', b, m, hdep, -, hcm⟩ := processPipeline_handed env s id p c hc
  obtain ⟨-, -, -, -, -, e6, -⟩ := checkDeprecated_ok p p' hdep
  rw [hcm]
  dsimp only
  rw [mergeManifest_scms]
  simp only [copySCMs, e6]

/-! ## The report of a parent after its pass -/

/-- C1, the code at a failing input.  The parent `MyApp` discovers three manifests of which
the second fails `Init`.  The pass runs to its end without error, two pipelines are
appended, and the report of the parent is SUCCESS although one discovered manifest failed to
instantiate: the assignment of line 217 overwrites the FAILURE of lines 202 and 208. -/
theorem report_success_after_failed_init :
    (LoadAutoDiscovery (sampleEnv true) false
        (sampleState [sampleParent "three" "" "pr-1" ""])).1 = none ∧
    (LoadAutoDiscovery (sampleEnv true) false
        (sampleState [sampleParent "three" "" "pr-1" ""])).2.inits.map
          (fun c => (initPipeline? (sampleEnv true) Options.zero c).isSome) = [true, false, true] ∧
    (LoadAutoDiscovery (sampleEnv true) false
        (sampleState [sampleParent "three" "" "pr-1" ""])).2.e.Pipelines.map
          (fun q => (q.Name, q.Report.Result)) =
      [("MyApp", .SUCCESS), ("svc-a", .UNSET), ("svc-b", .UNSET)] := by
  decide

/-- The report of a parent whose pass runs to its end is SUCCESS, whatever happened to its
manifests. -/
theorem discover_next_result (env : Env) (s s' : State) (id : Nat) (p : Pipeline) (wd : String)
    (hid : id < s.e.Pipelines.length) (h : discover env s id p wd = .next s') :
    s'.e.Pipelines[id]?.map (fun q => q.Report.Result) = some .SUCCESS := by
  cases hnew : env.New p.Config.Spec.AutoDiscovery wd with
  | error err => simp [discover, hnew] at h
  | ok c =>
    cases hrun : env.Run c with
    | error err => simp [discover, hnew, hrun] at h
    | ok bs =>
      obtain ⟨-, -, -, -, -, i6, -⟩ := processManifests_state env id p s.e.Pipelines.length hid bs
        { st := { s with news := s.news ++ [(p.Config.Spec.AutoDiscovery, wd)], runs := s.runs ++ [c] },
          actionConfig := resolveAction p, errs := [] } (Nat.le_refl _)
      simp only [discover, hnew, hrun] at h
      cases hpm : processManifests env id p bs
        { st := { s with news := s.news ++ [(p.Config.Spec.AutoDiscovery, wd)], runs := s.runs ++ [c] },
          actionConfig := resolveAction p, errs := [] } with
      | ret err s3 => rw [hpm] at h; cases h
      | next s3 =>
        rw [hpm] at h i6
        injection h with h
        subst h
        simp only [Flow.state] at i6
        exact setResult_result _ _ _ (by omega)

/-! ## Isolation of the instantiation failures -/

/-- C2.  For a parent at index `id` whose pass reaches the crawler (flag enabled, working
directory obtained, no clash of the deprecated field), whose crawler is constructed and
returns the manifests `bs`, all of which decode: the pass falls through to the next parent
(no error is returned), `Init` is called once per manifest in discovery order, the pipelines
appended are exactly those of the manifests for which `Init` succeeds, in that order, and so
are the configurations; with `k` failing manifests that makes `N - k` of each. -/
theorem instantiation_failures_isolated (env : Env) (s : State) (id : Nat) (p p' : Pipeline)
    (cwd : String) (c : Crawler) (bs : List Bytes)
    (hid : id < s.e.Pipelines.length)
    (hcrawlers : p.Config.Spec.AutoDiscovery.Crawlers ≠ none)
    (hexp : env.Experimental = true)
    (hwd : env.Getwd = .ok cwd)
    (hdep : checkDeprecated p = .ok p')
    (hnew : env.New p'.Config.Spec.AutoDiscovery (workDir p cwd) = .ok c)
    (hrun : env.Run c = .ok bs)
    (hdec : ∀ b ∈ bs, ∃ m, env.Unmarshal b = .ok m) :
    ∃ s' cs, processPipeline env s id p = .next s' ∧
      s'.inits = s.inits ++ cs ∧
      List.Forall₂ (fun b c => ∃ m, env.Unmarshal b = .ok m ∧
        c = { Spec := (mergeManifest env p' (resolveAction p') m).1 }) bs cs ∧
      s'.e.Pipelines.drop s.e.Pipelines.length = cs.filterMap (initPipeline? env s.e.Options) ∧
      s'.e.configurations = s.e.configurations ++ cs.filterMap (initConfig? env s.e.Options) ∧
      s'.e.Pipelines.length = s.e.Pipelines.length +
        (bs.length - cs.countP (fun c => (initPipeline? env s.e.Options c).isNone)) ∧
      s'.e.configurations.length = s.e.configurations.length +
        (bs.length - cs.countP (fun c => (initPipeline? env s.e.Options c).isNone)) := by
  obtain ⟨s', hs', h1, -, -, -, h5, h6, h7, -⟩ :=
    discover_next env s id p' (workDir p cwd) c bs hid hnew hrun hdec
  have hlen := length_handed env p' bs (resolveAction p') hdec
  have hcount := length_filterMap_add_countP (initPipeline? env s.e.Options)
    (handed env p' (resolveAction p') bs)
  have hcount' := length_filterMap_add_countP (initConfig? env s.e.Options)
    (handed env p' (resolveAction p') bs)
  have hsame : (handed env p' (resolveAction p') bs).countP
        (fun c => (initConfig? env s.e.Options c).isNone) =
      (handed env p' (resolveAction p') bs).countP
        (fun c => (initPipeline? env s.e.Options c).isNone) := by
    congr 1
    funext c
    unfold initConfig? initPipeline?
    cases env.Init c s.e.Options <;> rfl
  refine ⟨s', handed env p' (resolveAction p') bs, ?_, h1, ?_, h7, h5, ?_, ?_⟩
  · rw [processPipeline_discover env s id p p' cwd hcrawlers hexp hwd hdep, hs']
  · exact forall₂_handed env p' (resolveAction p') bs _ (Or.inl rfl) hdec
  · rw [h6]; omega
  · rw [h5, List.length_append]; omega

/-- C2 on the sample: three manifests, the second fails `Init`, two pipelines and two
configurations are appended, and the pass does not return. -/
theorem instantiation_failures_isolated_witness :
    (0 < (sampleState [sampleParent "three" "" "pr-1" ""]).e.Pipelines.length ∧
      (sampleParent "three" "" "pr-1" "").Config.Spec.AutoDiscovery.Crawlers ≠ none ∧
      (sampleEnv true).Experimental = true ∧
      (sampleEnv true).Getwd = .ok "/work" ∧
      checkDeprecated (sampleParent "three" "" "pr-1" "") = .ok (sampleParent "three" "" "pr-1" "") ∧
      (sampleEnv true).New (sampleParent "three" "" "pr-1" "").Config.Spec.AutoDiscovery
          (workDir (sampleParent "three" "" "pr-1" "") "/work") =
        .ok { spec := (sampleParent "three" "" "pr-1" "").Config.Spec.AutoDiscovery, rootDir := "/tmp/gh" } ∧
      (sampleEnv true).Run
          { spec := (sampleParent "three" "" "pr-1" "").Config.Spec.AutoDiscovery, rootDir := "/tmp/gh" } =
        .ok ["name: svc-a", "title: nameless", "name: svc-b"]) ∧
    ((LoadAutoDiscovery (sampleEnv true) false
        (sampleState [sampleParent "three" "" "pr-1" ""])).2.e.configurations.map
          fun c => c.Spec.Name) = ["svc-a", "svc-b"] ∧
    ∃ s' cs, processPipeline (sampleEnv true) (sampleState [sampleParent "three" "" "pr-1" ""]) 0
          (sampleParent "three" "" "pr-1" "") = .next s' ∧
      s'.inits = [] ++ cs ∧
      s'.e.Pipelines.length = 1 + (3 - cs.countP (fun c => (initPipeline? (sampleEnv true) Options.zero c).isNone)) ∧
      s'.e.configurations.length = 0 + (3 - cs.countP (fun c => (initPipeline? (sampleEnv true) Options.zero c).isNone)) := by
  refine ⟨⟨by decide, by decide, rfl, rfl, rfl, rfl, rfl⟩, by decide, ?_⟩
  obtain ⟨s', cs, h1, h2, -, -, -, h6, h7⟩ :=
    instantiation_failures_isolated (sampleEnv true) (sampleState [sampleParent "three" "" "pr-1" ""]) 0
      (sampleParent "three" "" "pr-1" "") (sampleParent "three" "" "pr-1" "") "/work"
      { spec := (sampleParent "three" "" "pr-1" "").Config.Spec.AutoDiscovery, rootDir := "/tmp/gh" }
      ["name: svc-a", "title: nameless", "name: svc-b"]
      (by decide) (by decide) rfl rfl rfl rfl rfl
      (by
        intro b hb
        simp only [List.mem_cons, List.mem_singleton, List.not_mem_nil, or_false] at hb
        rcases hb with rfl | rfl | rfl
        · exact ⟨_, rfl⟩
        · exact ⟨_, rfl⟩
        · exact ⟨_, rfl⟩)
  exact ⟨s', cs, h1, h2, h6, h7⟩

/-! ## Grouping and identity -/

/-- C3.  With grouping mode ALL or the empty string, the `switch` gives every decoded
manifest the `PipelineID` of the parent, and every manifest handed to `Init` during the pass
of the parent carries it, whatever its name, whatever `pipelineid` it was decoded with, and
however many there are. -/
theorem all_mode_reuses_parent_id (env : Env) (s : State) (id : Nat) (p : Pipeline)
    (hmode : p.Config.Spec.AutoDiscovery.GroupBy = GROUPBYALL ∨
      p.Config.Spec.AutoDiscovery.GroupBy = "") :
    (∀ m : Spec, groupPipelineID p m = p.Config.Spec.PipelineID) ∧
    ∀ c ∈ (processPipeline env s id p).state.inits.drop s.inits.length,
      c.Spec.PipelineID = p.Config.Spec.PipelineID := by
  refine ⟨fun m => by simp [groupPipelineID, hmode], ?_⟩
  exact all_mode_parent_id_aux env s id p hmode

/-- C3 on the sample: two manifests named `svc-a`, one decoded with `pipelineid: own`, both
handed to `Init` with the identifier `parent`. -/
theorem all_mode_reuses_parent_id_witness :
    ((sampleParent "twice" "all" "" "").Config.Spec.AutoDiscovery.GroupBy = GROUPBYALL ∨
      (sampleParent "twice" "all" "" "").Config.Spec.AutoDiscovery.GroupBy = "") ∧
    ((processPipeline (sampleEnv true) (sampleState [sampleParent "twice" "all" "" ""]) 0
        (sampleParent "twice" "all" "" "")).state.inits.drop 0).length = 2 ∧
    ∀ c ∈ (processPipeline (sampleEnv true) (sampleState [sampleParent "twice" "all" "" ""]) 0
        (sampleParent "twice" "all" "" "")).state.inits.drop 0,
      c.Spec.PipelineID = "parent" :=
  ⟨Or.inl rfl, by decide,
    (all_mode_reuses_parent_id (sampleEnv true) (sampleState [sampleParent "twice" "all" "" ""]) 0
      (sampleParent "twice" "all" "" "") (Or.inl rfl)).2⟩

/-- C4.  With grouping mode INDIVIDUAL, a manifest handed to `Init` during the pass of a
parent with `PipelineID` `P` carries the lower-case hexadecimal SHA-256 digest of
`P + "/" + N`, `N` being the name it was decoded with.  The identifier is a function of `P`
and `N` alone: two manifests of equal names under parents of equal `PipelineID` get equal
identifiers, in whatever environments, engine states and positions they are computed and
whatever their other fields. -/
theorem individual_id_from_parent_id_and_name (env₁ env₂ : Env) (s₁ s₂ : State) (id₁ id₂ : Nat)
    (p₁ p₂ : Pipeline)
    (h₁ : p₁.Config.Spec.AutoDiscovery.GroupBy = GROUPBYINDIVIDUAL)
    (h₂ : p₂.Config.Spec.AutoDiscovery.GroupBy = GROUPBYINDIVIDUAL)
    (hP : p₁.Config.Spec.PipelineID = p₂.Config.Spec.PipelineID) :
    (∀ m₁ m₂ : Spec,
      groupPipelineID p₁ m₁ =
        hexEncode (Sha256.sum (stringBytes (p₁.Config.Spec.PipelineID ++ "/" ++ m₁.Name))) ∧
      (m₁.Name = m₂.Name → groupPipelineID p₁ m₁ = groupPipelineID p₂ m₂)) ∧
    ∀ c₁ ∈ (processPipeline env₁ s₁ id₁ p₁).state.inits.drop s₁.inits.length,
      (∃ b m, env₁.Unmarshal b = .ok m ∧ c₁.Spec.Name = m.Name) ∧
      c₁.Spec.PipelineID =
        hexEncode (Sha256.sum (stringBytes (p₁.Config.Spec.PipelineID ++ "/" ++ c₁.Spec.Name))) ∧
      ∀ c₂ ∈ (processPipeline env₂ s₂ id₂ p₂).state.inits.drop s₂.inits.length,
        c₁.Spec.Name = c₂.Spec.Name → c₁.Spec.PipelineID = c₂.Spec.PipelineID := by
  refine ⟨fun m₁ m₂ => ⟨groupPipelineID_individual p₁ m₁ h₁, fun hn => ?_⟩, ?_⟩
  · rw [groupPipelineID_individual p₁ m₁ h₁, groupPipelineID_individual p₂ m₂ h₂, hP, hn]
  · intro c₁ hc₁
    have hid₁ := individual_id_aux env₁ s₁ id₁ p₁ h₁ c₁ hc₁
    obtain ⟨p', b, m, -, hm, hcm⟩ := processPipeline_handed env₁ s₁ id₁ p₁ c₁ hc₁
    have hname : c₁.Spec.Name = m.Name := by rw [hcm]; exact mergeManifest_name env₁ p' _ m
    refine ⟨⟨b, m, hm, hname⟩, hid₁, ?_⟩
    intro c₂ hc₂ hn
    rw [hid₁, individual_id_aux env₂ s₂ id₂ p₂ h₂ c₂ hc₂, hP, hn]

/-- C4 on the sample: the parent `parent` discovers two manifests named `svc-a`, one with a
version and a `pipelineid` of its own; both are handed to `Init` with the SHA-256 digest of
`parent/svc-a`. -/
theorem individual_id_from_parent_id_and_name_witness :
    (sampleParent "twice" "individual" "" "").Config.Spec.AutoDiscovery.GroupBy = GROUPBYINDIVIDUAL ∧
    ((processPipeline (sampleEnv true) (sampleState [sampleParent "twice" "individual" "" ""]) 0
        (sampleParent "twice" "individual" "" "")).state.inits.drop 0).map
          (fun c => (c.Spec.Name, c.Spec.Version)) = [("svc-a", "v0.99.0"), ("svc-a", "")] ∧
    ((processPipeline (sampleEnv true) (sampleState [sampleParent "twice" "individual" "" ""]) 0
        (sampleParent "twice" "individual" "" "")).state.inits.drop 0).map
          (fun c => c.Spec.PipelineID) =
      ["77f90fe5875a36f0a4e27200b44454581f8699ae896fbe592e712df88f20d1f1",
       "77f90fe5875a36f0a4e27200b44454581f8699ae896fbe592e712df88f20d1f1"] ∧
    ∀ c ∈ (processPipeline (sampleEnv true) (sampleState [sampleParent "twice" "individual" "" ""]) 0
        (sampleParent "twice" "individual" "" "")).state.inits.drop 0,
      c.Spec.PipelineID =
        hexEncode (Sha256.sum (stringBytes ("parent" ++ "/" ++ c.Spec.Name))) :=
  ⟨rfl, by decide, by decide!, fun c hc =>
    ((individual_id_from_parent_id_and_name (sampleEnv true) (sampleEnv true)
      (sampleState [sampleParent "twice" "individual" "" ""])
      (sampleState [sampleParent "twice" "individual" "" ""]) 0 0
      (sampleParent "twice" "individual" "" "") (sampleParent "twice" "individual" "" "")
      rfl rfl rfl).2 c hc).2.1⟩

/-- The embedding of SHA-256 on the test vector `abc` of FIPS 180-4. -/
theorem sha256_abc :
    hexEncode (Sha256.sum (stringBytes "abc")) =
      "ba7816bf8f01cfea414140de5dae2223b00361a396177a9cb410ff61f20015ad" := by
  decide!

/-- The embedding of SHA-256 on a message of more than one block (200 times `a`). -/
theorem sha256_two_blocks :
    hexEncode (Sha256.sum (List.replicate 200 97)) =
      "c2a908d98f5df987ade41b5fce213067efbcc21ef2240212a41e54b5e7c28ae5" := by
  decide!

/-- The digest of `parent/svc-a`, as `sha256sum` prints it. -/
theorem sha256_parent_svc_a :
    hexEncode (Sha256.sum (stringBytes "parent/svc-a")) =
      "77f90fe5875a36f0a4e27200b44454581f8699ae896fbe592e712df88f20d1f1" := by
  decide!

/-! ## Uniqueness of the identifiers -/

/-- C5, the claim at a concrete input.  In mode ALL (here: the empty string) the parent
`parent` discovers one manifest; the pipeline appended for it has the `PipelineID` of the
parent, which is already in the collection. -/
theorem appended_id_not_fresh :
    ((LoadAutoDiscovery (sampleEnv true) false
        (sampleState [sampleParent "one" "" "" ""])).2.e.Pipelines.map
          fun q => (q.Name, q.Config.Spec.PipelineID)) =
      [("MyApp", "parent"), ("svc-a", "parent")] := by
  decide

/-- C5 as amended.  Provided `Init` builds the pipeline with the `PipelineID` of the manifest
it is given, a pipeline appended during the pass of the parent at index `id` has, in mode ALL
or empty, the `PipelineID` of the parent, so that a pipeline already in the collection has
the same identifier; in mode INDIVIDUAL it has the hexadecimal SHA-256 digest of
`P + "/" + N` for the name `N` of a manifest handed to `Init` in that pass. -/
theorem appended_id_by_mode (env : Env) (s : State) (id : Nat) (p : Pipeline)
    (hp : s.e.Pipelines[id]? = some p)
    (hInit : ∀ c o pl c', env.Init c o = .ok (pl, c') →
      pl.Config.Spec.PipelineID = c.Spec.PipelineID) :
    ∀ pl ∈ (processPipeline env s id p).state.e.Pipelines.drop s.e.Pipelines.length,
      ((p.Config.Spec.AutoDiscovery.GroupBy = GROUPBYALL ∨
          p.Config.Spec.AutoDiscovery.GroupBy = "") →
        pl.Config.Spec.PipelineID = p.Config.Spec.PipelineID ∧
        ∃ q ∈ s.e.Pipelines, q.Config.Spec.PipelineID = pl.Config.Spec.PipelineID) ∧
      (p.Config.Spec.AutoDiscovery.GroupBy = GROUPBYINDIVIDUAL →
        ∃ c ∈ (processPipeline env s id p).state.inits.drop s.inits.length,
          pl.Config.Spec.PipelineID =
            hexEncode (Sha256.sum (stringBytes (p.Config.Spec.PipelineID ++ "/" ++ c.Spec.Name)))) := by
  intro pl hpl
  have hid : id < s.e.Pipelines.length := by
    rcases Nat.lt_or_ge id s.e.Pipelines.length with h | h
    · exact h
    · rw [List.getElem?_eq_none h] at hp; cases hp
  obtain ⟨cs, h1, -, -, -, h5⟩ := processPipeline_appended env s id p hid
  rw [h5] at hpl
  obtain ⟨c, hc, c', hinit⟩ := mem_filterMap_initPipeline? env s.e.Options cs pl hpl
  have hcnew : c ∈ (processPipeline env s id p).state.inits.drop s.inits.length := by
    rw [h1, List.drop_left]; exact hc
  have hplc := hInit c s.e.Options pl c' hinit
  constructor
  · intro hmode
    have hcid := (all_mode_parent_id_aux env s id p hmode) c hcnew
    refine ⟨by rw [hplc, hcid], p, List.getElem?_mem hp, by rw [hplc, hcid]⟩
  · intro hmode
    exact ⟨c, hcnew, by rw [hplc]; exact individual_id_aux env s id p hmode c hcnew⟩

/-- C5 as amended, on the sample: the pipeline appended for the one manifest discovered has
the identifier `parent`. -/
theorem appended_id_by_mode_witness :
    (sampleState [sampleParent "one" "" "" ""]).e.Pipelines[0]? = some (sampleParent "one" "" "" "") ∧
    (∀ c o pl c', (sampleEnv true).Init c o = .ok (pl, c') →
      pl.Config.Spec.PipelineID = c.Spec.PipelineID) ∧
    ((processPipeline (sampleEnv true) (sampleState [sampleParent "one" "" "" ""]) 0
        (sampleParent "one" "" "" "")).state.e.Pipelines.drop 1).length = 1 ∧
    ∀ pl ∈ (processPipeline (sampleEnv true) (sampleState [sampleParent "one" "" "" ""]) 0
        (sampleParent "one" "" "" "")).state.e.Pipelines.drop 1,
      pl.Config.Spec.PipelineID = "parent" :=
  ⟨rfl, sampleInit_pipelineID, by decide, fun pl hpl =>
    ((appended_id_by_mode (sampleEnv true) (sampleState [sampleParent "one" "" "" ""]) 0
      (sampleParent "one" "" "" "") rfl sampleInit_pipelineID pl hpl).1 (Or.inr rfl)).1⟩

/-! ## The experimental flag -/

/-- C6, the claim at a concrete input.  The flag is disabled, the one pipeline of the engine
declares autodiscovery, and `defaultEnabled` is true: no error is returned, but the default
pipeline `Local AutoDiscovery` has been appended before the flag is looked at. -/
theorem disabled_bootstrap_appends :
    (sampleParent "one" "" "" "").Config.Spec.AutoDiscovery.Crawlers ≠ none ∧
    (LoadAutoDiscovery (sampleEnv false) true (sampleState [sampleParent "one" "" "" ""])).1 = none ∧
    ((LoadAutoDiscovery (sampleEnv false) true
        (sampleState [sampleParent "one" "" "" ""])).2.e.Pipelines.map fun q => q.Name) =
      ["MyApp", "Local AutoDiscovery"] := by
  decide

/-- C6 as amended.  With the experimental flag disabled, `LoadAutoDiscovery` returns no
error, constructs and runs no crawler, leaves the configurations alone, and leaves the
pipelines and their reports as they were, except that with `defaultEnabled` the default
pipeline is appended when its `Init` succeeds. -/
theorem disabled_is_noop_up_to_bootstrap (env : Env) (defaultEnabled : Bool) (s : State)
    (hexp : env.Experimental = false) :
    (LoadAutoDiscovery env defaultEnabled s).1 = none ∧
    (LoadAutoDiscovery env defaultEnabled s).2.news = s.news ∧
    (LoadAutoDiscovery env defaultEnabled s).2.runs = s.runs ∧
    (LoadAutoDiscovery env defaultEnabled s).2.e.configurations = s.e.configurations ∧
    (LoadAutoDiscovery env defaultEnabled s).2.e.Pipelines =
      s.e.Pipelines ++
        (if defaultEnabled then (initPipeline? env Options.zero (defaultConfig env)).toList
         else []) := by
  have hloop : ∀ s₁ : State,
      (match rangePipelines env 0 s₁.e.Pipelines s₁ with
        | .next s₂ => ((none : Option Error), s₂)
        | .ret err s₂ => (err, s₂)) = (none, s₁) := by
    intro s₁
    rcases rangePipelines_disabled env hexp s₁.e.Pipelines 0 s₁ with h | h <;> rw [h]
  unfold LoadAutoDiscovery
  dsimp only
  rw [hloop]
  cases defaultEnabled with
  | false => simp
  | true =>
    obtain ⟨h1, h2, -, h4, h5⟩ := bootstrap_state env s
    simp [h1, h2, h4, h5]

/-- C6 as amended, on the sample, without the default pipeline: the collection is as it
was. -/
theorem disabled_is_noop_up_to_bootstrap_witness :
    (sampleEnv false).Experimental = false ∧
    (LoadAutoDiscovery (sampleEnv false) false (sampleState [sampleParent "one" "" "" ""])).1 = none ∧
    (LoadAutoDiscovery (sampleEnv false) false (sampleState [sampleParent "one" "" "" ""])).2.e.Pipelines =
      [sampleParent "one" "" "" ""] ++ [] :=
  ⟨rfl,
    (disabled_is_noop_up_to_bootstrap (sampleEnv false) false
      (sampleState [sampleParent "one" "" "" ""]) rfl).1,
    (disabled_is_noop_up_to_bootstrap (sampleEnv false) false
      (sampleState [sampleParent "one" "" "" ""]) rfl).2.2.2.2⟩

/-! ## The deprecated `pullrequestid` -/

/-- C7.  With the flag enabled, let the loop reach, in state `s₁`, a parent that declares
autodiscovery and has both `ActionId` and `PullrequestId` set.  Then `LoadAutoDiscovery`
returns an error and the state it leaves is `s₁`: no crawler was constructed or run for the
parent and no pipeline or configuration was appended for it.  The error is the one about the
mutually exclusive keywords whenever the working directory could be obtained (the call to
`os.Getwd` comes first in the body of the loop). -/
theorem mutually_exclusive_error (env : Env) (defaultEnabled : Bool) (s s₁ : State)
    (pre post : List Pipeline) (p : Pipeline)
    (hexp : env.Experimental = true)
    (hps : (if defaultEnabled then bootstrap env s else s).e.Pipelines = pre ++ p :: post)
    (hreach : rangePipelines env 0 pre (if defaultEnabled then bootstrap env s else s) = .next s₁)
    (hcrawlers : p.Config.Spec.AutoDiscovery.Crawlers ≠ none)
    (hA : p.Config.Spec.AutoDiscovery.ActionId ≠ "")
    (hP : p.Config.Spec.AutoDiscovery.PullrequestId ≠ "") :
    ∃ err, LoadAutoDiscovery env defaultEnabled s = (some err, s₁) ∧
      ∀ cwd, env.Getwd = .ok cwd → err = mutuallyExclusiveError := by
  obtain ⟨err, herr, hcwd⟩ :=
    processPipeline_mutually_exclusive env s₁ (0 + pre.length) p hexp hcrawlers hA hP
  refine ⟨err, ?_, hcwd⟩
  unfold LoadAutoDiscovery
  dsimp only
  rw [hps, rangePipelines_append, hreach]
  simp only [rangePipelines, herr]

/-- C7 on the sample: the first parent discovers one manifest, the second has both keywords
set; the run returns the error and stops in the state the pass of the first parent left. -/
theorem mutually_exclusive_error_witness :
    (sampleEnv true).Experimental = true ∧
    (sampleParent "three" "" "pr-1" "pr-1").Config.Spec.AutoDiscovery.ActionId ≠ "" ∧
    (sampleParent "three" "" "pr-1" "pr-1").Config.Spec.AutoDiscovery.PullrequestId ≠ "" ∧
    ∃ err, LoadAutoDiscovery (sampleEnv true) false
        (sampleState [sampleParent "one" "" "" "", sampleParent "three" "" "pr-1" "pr-1"]) =
          (some err, (processPipeline (sampleEnv true)
            (sampleState [sampleParent "one" "" "" "", sampleParent "three" "" "pr-1" "pr-1"]) 0
            (sampleParent "one" "" "" "")).state) ∧
      ∀ cwd, (sampleEnv true).Getwd = .ok cwd → err = mutuallyExclusiveError :=
  ⟨rfl, by decide, by decide,
    mutually_exclusive_error (sampleEnv true) false
      (sampleState [sampleParent "one" "" "" "", sampleParent "three" "" "pr-1" "pr-1"])
      (processPipeline (sampleEnv true)
        (sampleState [sampleParent "one" "" "" "", sampleParent "three" "" "pr-1" "pr-1"]) 0
        (sampleParent "one" "" "" "")).state
      [sampleParent "one" "" "" ""] [] (sampleParent "three" "" "pr-1" "pr-1")
      rfl rfl rfl (by decide) (by decide) (by decide)⟩

/-- C8.  For a parent that sets only the deprecated `PullrequestId`, to a non-empty `v`: the
check for deprecated items succeeds, the loop variable afterwards has `ActionId = v` and an
empty `PullrequestId`, the action resolved is the configuration stored under `v` in the
action map of the parent (none when `v` is not a key), and every manifest handed to `Init`
carries that configuration (with the title of lines 164-183) as its one action, or the
actions it was decoded with when none was resolved. -/
theorem pullrequestid_migrated (env : Env) (s : State) (id : Nat) (p : Pipeline) (v : String)
    (hA : p.Config.Spec.AutoDiscovery.ActionId = "")
    (hP : p.Config.Spec.AutoDiscovery.PullrequestId = v) (hv : v ≠ "") :
    ∃ p', checkDeprecated p = .ok p' ∧
      p'.Config.Spec.AutoDiscovery.ActionId = v ∧
      p'.Config.Spec.AutoDiscovery.PullrequestId = "" ∧
      resolveAction p' = (p.Actions.lookup v).map (fun a => a.Config) ∧
      ∀ c ∈ (processPipeline env s id p).state.inits.drop s.inits.length,
        match p.Actions.lookup v with
        | some a =>
            c.Spec.Actions = [(p.Config.Spec.AutoDiscovery.ScmId, defaultTitle p a.Config)]
        | none => ∃ b m, env.Unmarshal b = .ok m ∧ c.Spec.Actions = m.Actions := by
  have hP' : p.Config.Spec.AutoDiscovery.PullrequestId ≠ "" := by rw [hP]; exact hv
  have hdep : checkDeprecated p = .ok
      { p with Config := { Spec := { p.Config.Spec with AutoDiscovery :=
        { p.Config.Spec.AutoDiscovery with
          ActionId := p.Config.Spec.AutoDiscovery.PullrequestId
          PullrequestId := "" } } } } := by
    simp [checkDeprecated, hP', hA]
  have hres : resolveAction
      { p with Config := { Spec := { p.Config.Spec with AutoDiscovery :=
        { p.Config.Spec.AutoDiscovery with
          ActionId := p.Config.Spec.AutoDiscovery.PullrequestId
          PullrequestId := "" } } } } = (p.Actions.lookup v).map (fun a => a.Config) := by
    have hlen : 0 < v.length := (length_pos_iff_ne_empty v).2 hv
    simp only [resolveAction, hP, hlen, if_true]
    cases GoMap.lookup p.Actions v <;> rfl
  refine ⟨_, hdep, hP, rfl, hres, ?_⟩
  intro c hc
  cases hl : GoMap.lookup p.Actions v with
  | none =>
    rw [hl] at hres
    exact handed_actions_none env s id p _ hdep hres c hc
  | some a =>
    rw [hl] at hres
    exact handed_actions_some env s id p _ a.Config hdep hres c hc

/-- C8 on the sample: `pullrequestid: pr-1` alone; the action stored under `pr-1` is handed
to the manifest discovered, under the key `gh`. -/
theorem pullrequestid_migrated_witness :
    (sampleParent "one" "individual" "" "pr-1").Config.Spec.AutoDiscovery.ActionId = "" ∧
    (sampleParent "one" "individual" "" "pr-1").Config.Spec.AutoDiscovery.PullrequestId = "pr-1" ∧
    "pr-1" ≠ "" ∧
    ((processPipeline (sampleEnv true) (sampleState [sampleParent "one" "individual" "" "pr-1"]) 0
        (sampleParent "one" "individual" "" "pr-1")).state.inits.drop 0).map
          (fun c => c.Spec.Actions) = [[("gh", { Title := "", Rest := "github" })]] ∧
    ∃ p', checkDeprecated (sampleParent "one" "individual" "" "pr-1") = .ok p' ∧
      p'.Config.Spec.AutoDiscovery.ActionId = "pr-1" ∧
      p'.Config.Spec.AutoDiscovery.PullrequestId = "" ∧
      resolveAction p' = some { Title := "", Rest := "github" } := by
  refine ⟨rfl, rfl, by decide, by decide!, ?_⟩
  obtain ⟨p', h1, h2, h3, h4, -⟩ :=
    pullrequestid_migrated (sampleEnv true) (sampleState [sampleParent "one" "individual" "" "pr-1"]) 0
      (sampleParent "one" "individual" "" "pr-1") "pr-1" rfl rfl (by decide)
  exact ⟨p', h1, h2, h3, h4⟩

/-! ## The action of the discovered manifests -/

/-- C9.  When an action `a` is resolved for the parent, every manifest handed to `Init`
during its pass, the first and the later ones alike, has one action, which is `a` with the
title: that of `a` when it is not empty or the mode is INDIVIDUAL; in mode ALL or empty with
an empty title, the name of the parent when that is not empty, and the generic title
otherwise. -/
theorem injected_action_title (env : Env) (s : State) (id : Nat) (p p' : Pipeline)
    (a : ActionConfig) (hdep : checkDeprecated p = .ok p') (hres : resolveAction p' = some a) :
    ∀ c ∈ (processPipeline env s id p).state.inits.drop s.inits.length,
      ∃ a', c.Spec.Actions = [(p.Config.Spec.AutoDiscovery.ScmId, a')] ∧
        a'.Rest = a.Rest ∧
        (a.Title ≠ "" ∨ p.Config.Spec.AutoDiscovery.GroupBy = GROUPBYINDIVIDUAL →
          a'.Title = a.Title) ∧
        ((p.Config.Spec.AutoDiscovery.GroupBy = GROUPBYALL ∨
            p.Config.Spec.AutoDiscovery.GroupBy = "") → a.Title = "" →
          (p.Config.Spec.Name ≠ "" → a'.Title = p.Config.Spec.Name) ∧
          (p.Config.Spec.Name = "" → a'.Title = "deps: bumping various version")) := by
  intro c hc
  refine ⟨defaultTitle p a, handed_actions_some env s id p p' a hdep hres c hc, ?_, ?_, ?_⟩
  · unfold defaultTitle
    split
    · dsimp only; split <;> rfl
    · rfl
  · intro h
    have hcond : ¬ ((p.Config.Spec.AutoDiscovery.GroupBy = GROUPBYALL ∨
        p.Config.Spec.AutoDiscovery.GroupBy = "") ∧ a.Title = "") := by
      rintro ⟨hm, ht⟩
      rcases h with h | h
      · exact h ht
      · rw [h] at hm
        revert hm
        decide
    simp [defaultTitle, hcond]
  · intro hm ht
    constructor
    · intro hn
      simp [defaultTitle, hm, ht, hn]
    · intro hn
      simp [defaultTitle, hm, ht, hn, defaultActionTitle]

/-- C9 on the sample: mode ALL, parent named `MyApp`, an action with an empty title; the two
manifests discovered are both handed to `Init` with the title `MyApp`. -/
theorem injected_action_title_witness :
    checkDeprecated (sampleParent "twice" "all" "pr-1" "") = .ok (sampleParent "twice" "all" "pr-1" "") ∧
    resolveAction (sampleParent "twice" "all" "pr-1" "") = some { Title := "", Rest := "github" } ∧
    ((processPipeline (sampleEnv true) (sampleState [sampleParent "twice" "all" "pr-1" ""]) 0
        (sampleParent "twice" "all" "pr-1" "")).state.inits.drop 0).length = 2 ∧
    ∀ c ∈ (processPipeline (sampleEnv true) (sampleState [sampleParent "twice" "all" "pr-1" ""]) 0
        (sampleParent "twice" "all" "pr-1" "")).state.inits.drop 0,
      ∃ a', c.Spec.Actions = [("gh", a')] ∧ a'.Title = "MyApp" := by
  refine ⟨rfl, by decide, by decide, ?_⟩
  intro c hc
  obtain ⟨a', h1, -, -, h4⟩ :=
    injected_action_title (sampleEnv true) (sampleState [sampleParent "twice" "all" "pr-1" ""]) 0
      (sampleParent "twice" "all" "pr-1" "") (sampleParent "twice" "all" "pr-1" "")
      { Title := "", Rest := "github" } rfl (by decide) c hc
  exact ⟨a', h1, (h4 (Or.inl rfl) rfl).1 (by decide)⟩

/-- C10.  When an action `a` is resolved for the parent, the action map of every manifest
handed to `Init` during its pass has exactly one entry: its key is the `ScmId` of the
autodiscovery block of the parent (the empty string when that is unset), whatever the
`ActionId`, and its value is `a` after the title defaulting; nothing of the action map the
manifest was decoded with is left. -/
theorem injected_action_keyed_by_scmid (env : Env) (s : State) (id : Nat) (p p' : Pipeline)
    (a : ActionConfig) (hdep : checkDeprecated p = .ok p') (hres : resolveAction p' = some a) :
    ∀ c ∈ (processPipeline env s id p).state.inits.drop s.inits.length,
      c.Spec.Actions = [(p.Config.Spec.AutoDiscovery.ScmId, defaultTitle p a)] ∧
      c.Spec.Actions.length = 1 ∧
      GoMap.keys c.Spec.Actions = [p.Config.Spec.AutoDiscovery.ScmId] ∧
      GoMap.lookup c.Spec.Actions p.Config.Spec.AutoDiscovery.ScmId = some (defaultTitle p a) ∧
      (∀ k, k ≠ p.Config.Spec.AutoDiscovery.ScmId → GoMap.lookup c.Spec.Actions k = none) ∧
      (p.Config.Spec.AutoDiscovery.ScmId = "" →
        GoMap.lookup c.Spec.Actions "" = some (defaultTitle p a)) := by
  intro c hc
  have h := handed_actions_some env s id p p' a hdep hres c hc
  rw [h]
  refine ⟨rfl, rfl, rfl, by simp [GoMap.lookup], ?_, ?_⟩
  · intro k hk
    simp [GoMap.lookup, Ne.symm hk]
  · intro hs
    simp [GoMap.lookup, hs]

/-- C10 on the sample: the action is stored under `pr-1` in the parent and the `ScmId` is
`gh`; the three manifests discovered are handed to `Init` with the one key `gh`. -/
theorem injected_action_keyed_by_scmid_witness :
    checkDeprecated (sampleParent "three" "all" "pr-1" "") = .ok (sampleParent "three" "all" "pr-1" "") ∧
    resolveAction (sampleParent "three" "all" "pr-1" "") = some { Title := "", Rest := "github" } ∧
    ((processPipeline (sampleEnv true) (sampleState [sampleParent "three" "all" "pr-1" ""]) 0
        (sampleParent "three" "all" "pr-1" "")).state.inits.drop 0).length = 3 ∧
    ∀ c ∈ (processPipeline (sampleEnv true) (sampleState [sampleParent "three" "all" "pr-1" ""]) 0
        (sampleParent "three" "all" "pr-1" "")).state.inits.drop 0,
      GoMap.keys c.Spec.Actions = ["gh"] ∧ GoMap.lookup c.Spec.Actions "pr-1" = none :=
  ⟨rfl, by decide, by decide, fun c hc =>
    ⟨(injected_action_keyed_by_scmid (sampleEnv true)
        (sampleState [sampleParent "three" "all" "pr-1" ""]) 0
        (sampleParent "three" "all" "pr-1" "") (sampleParent "three" "all" "pr-1" "")
        { Title := "", Rest := "github" } rfl (by decide) c hc).2.2.1,
      (injected_action_keyed_by_scmid (sampleEnv true)
        (sampleState [sampleParent "three" "all" "pr-1" ""]) 0
        (sampleParent "three" "all" "pr-1" "") (sampleParent "three" "all" "pr-1" "")
        { Title := "", Rest := "github" } rfl (by decide) c hc).2.2.2.2.1 "pr-1" (by decide)⟩⟩

/-! ## The SCM map of the discovered manifests -/

/-- C11.  Let `p` be the pipeline at index `id`, its `SCMs` a map (no key twice).  Every
manifest handed to `Init` during the pass of `p` has an SCM map with the keys of `p.SCMs`,
each bound to the configuration `p.SCMs` holds for it (the map is the entry-by-entry copy),
whatever SCMs the manifest was decoded with.  After the pass the pipeline at index `id`, and
every pipeline the pass found in the collection, has the `SCMs` it had before. -/
theorem scms_copied_from_parent (env : Env) (s : State) (id : Nat) (p : Pipeline)
    (hp : s.e.Pipelines[id]? = some p) (hkeys : (GoMap.keys p.SCMs).Nodup) :
    (∀ c ∈ (processPipeline env s id p).state.inits.drop s.inits.length,
      c.Spec.SCMs = p.SCMs.map (fun kv => (kv.1, kv.2.Config)) ∧
      GoMap.keys c.Spec.SCMs = GoMap.keys p.SCMs ∧
      ∀ k, GoMap.lookup c.Spec.SCMs k = (GoMap.lookup p.SCMs k).map (fun sc => sc.Config)) ∧
    (∃ q, (processPipeline env s id p).state.e.Pipelines[id]? = some q ∧ q.SCMs = p.SCMs) ∧
    ∀ (j : Nat) (q₀ : Pipeline), s.e.Pipelines[j]? = some q₀ →
      ∃ q, (processPipeline env s id p).state.e.Pipelines[j]? = some q ∧ q.SCMs = q₀.SCMs := by
  have hframe : ∀ (j : Nat) (q₀ : Pipeline), s.e.Pipelines[j]? = some q₀ →
      ∃ q, (processPipeline env s id p).state.e.Pipelines[j]? = some q ∧ q.SCMs = q₀.SCMs := by
    intro j q₀ hj
    have hlt : j < s.e.Pipelines.length := by
      rcases Nat.lt_or_ge j s.e.Pipelines.length with h | h
      · exact h
      · rw [List.getElem?_eq_none h] at hj; cases hj
    have h := processPipeline_frame (fun q => q.SCMs) (fun _ _ => rfl) env s id p j hlt
    rw [hj] at h
    cases hq : (processPipeline env s id p).state.e.Pipelines[j]? with
    | none => rw [hq] at h; cases h
    | some q =>
      rw [hq] at h
      simp only [Option.map_some', Option.some.injEq] at h
      exact ⟨q, rfl, h⟩
  refine ⟨?_, hframe id p hp, hframe⟩
  intro c hc
  have h := handed_scms env s id p c hc
  rw [copySCMs_eq_map p hkeys] at h
  rw [h]
  exact ⟨rfl, keys_map_snd p.SCMs _, fun k => lookup_map_snd p.SCMs _ k⟩

/-- C11 on the sample: the parent has the SCMs `gh` and `gl`; the two manifests discovered
are handed to `Init` with both entries, and the parent keeps its own. -/
theorem scms_copied_from_parent_witness :
    (sampleState [sampleParent "twice" "all" "" ""]).e.Pipelines[0]? =
      some (sampleParent "twice" "all" "" "") ∧
    (GoMap.keys (sampleParent "twice" "all" "" "").SCMs).Nodup ∧
    ((processPipeline (sampleEnv true) (sampleState [sampleParent "twice" "all" "" ""]) 0
        (sampleParent "twice" "all" "" "")).state.inits.drop 0).length = 2 ∧
    (∀ c ∈ (processPipeline (sampleEnv true) (sampleState [sampleParent "twice" "all" "" ""]) 0
        (sampleParent "twice" "all" "" "")).state.inits.drop 0,
      c.Spec.SCMs = [("gh", { Rest := "cfgA" }), ("gl", { Rest := "cfgB" })]) ∧
    ∃ q, (processPipeline (sampleEnv true) (sampleState [sampleParent "twice" "all" "" ""]) 0
        (sampleParent "twice" "all" "" "")).state.e.Pipelines[0]? = some q ∧
      q.SCMs = [("gh", { Config := { Rest := "cfgA" }, Directory := "/tmp/gh" }),
                ("gl", { Config := { Rest := "cfgB" }, Directory := "/tmp/gl" })] :=
  ⟨rfl, by decide, by decide,
    fun c hc =>
      ((scms_copied_from_parent (sampleEnv true) (sampleState [sampleParent "twice" "all" "" ""]) 0
        (sampleParent "twice" "all" "" "") rfl (by decide)).1 c hc).1,
    (scms_copied_from_parent (sampleEnv true) (sampleState [sampleParent "twice" "all" "" ""]) 0
      (sampleParent "twice" "all" "" "") rfl (by decide)).2.1⟩

/-! ## The string fed to the hash -/

/-- C12, the code at a failing input.  The parents `team/app` and `team`, both in mode
INDIVIDUAL, discover the manifests `nginx` and `app/nginx`.  The pairs differ, the strings
fed to the hash are the same, `team/app/nginx`, and so are the identifiers of the two
manifests handed to `Init`: no collision of SHA-256 is involved. -/
theorem slash_pairs_share_identifier :
    ("team/app", "nginx") ≠ ("team", "app/nginx") ∧
    "team/app" ++ "/" ++ "nginx" = "team" ++ "/" ++ "app/nginx" ∧
    groupPipelineID (slashParent "first" "team/app") { Spec.zero with Name := "nginx" } =
      groupPipelineID (slashParent "second" "team") { Spec.zero with Name := "app/nginx" } ∧
    (LoadAutoDiscovery slashEnv false
        (sampleState [slashParent "first" "team/app", slashParent "second" "team"])).1 = none ∧
    ((LoadAutoDiscovery slashEnv false
        (sampleState [slashParent "first" "team/app", slashParent "second" "team"])).2.inits.map
          fun c => (c.Spec.Name, c.Spec.PipelineID)) =
      [("nginx", "b55baec9cf64a32de747dd6c01eddc9b9b0044cf98eb9569c52eab9881bd9c35"),
       ("app/nginx", "b55baec9cf64a32de747dd6c01eddc9b9b0044cf98eb9569c52eab9881bd9c35")] := by
  refine ⟨by decide, by decide, by decide!, by decide, by decide!⟩

/-- Under one parent the string fed to the hash determines the name. -/
theorem hash_input_injective_same_parent (P N₁ N₂ : String)
    (h : P ++ "/" ++ N₁ = P ++ "/" ++ N₂) : N₁ = N₂ := by
  have h' := congrArg String.data h
  simp only [String.data_append, List.append_assoc, List.append_cancel_left_eq] at h'
  exact String.ext h'

theorem append_slash_injective :
    ∀ (l₁ l₂ r₁ r₂ : List Char), '/' ∉ l₁ → '/' ∉ l₂ →
      l₁ ++ '/' :: r₁ = l₂ ++ '/' :: r₂ → l₁ = l₂ ∧ r₁ = r₂ := by
  intro l₁
  induction l₁ with
  | nil =>
    intro l₂ r₁ r₂ _ h₂ h
    cases l₂ with
    | nil => simpa using h
    | cons c l₂ =>
      simp only [List.nil_append, List.cons_append, List.cons.injEq] at h
      exact absurd (by rw [← h.1]; exact List.mem_cons_self _ _) h₂
  | cons c l₁ ih =>
    intro l₂ r₁ r₂ h₁ h₂ h
    cases l₂ with
    | nil =>
      simp only [List.nil_append, List.cons_append, List.cons.injEq] at h
      exact absurd (by rw [h.1]; exact List.mem_cons_self _ _) h₁
    | cons d l₂ =>
      simp only [List.cons_append, List.cons.injEq] at h
      obtain ⟨e₁, e₂⟩ := ih l₂ r₁ r₂ (fun hm => h₁ (List.mem_cons_of_mem _ hm))
        (fun hm => h₂ (List.mem_cons_of_mem _ hm)) h.2
      exact ⟨by rw [h.1, e₁], e₂⟩

/-- Between parents whose identifiers hold no slash, the string fed to the hash determines
the identifier of the parent and the name. -/
theorem hash_input_injective_of_no_slash (P₁ N₁ P₂ N₂ : String)
    (h₁ : '/' ∉ P₁.data) (h₂ : '/' ∉ P₂.data)
    (h : P₁ ++ "/" ++ N₁ = P₂ ++ "/" ++ N₂) : P₁ = P₂ ∧ N₁ = N₂ := by
  have h' := congrArg String.data h
  simp only [String.data_append, List.append_assoc] at h'
  simp only [List.singleton_append] at h'
  obtain ⟨e₁, e₂⟩ := append_slash_injective P₁.data P₂.data N₁.data N₂.data h₁ h₂ h'
  exact ⟨String.ext e₁, String.ext e₂⟩

end Updatecli
